import Mathlib

/-!
Kernel objects of basekernel (`kernel/kobject.c`): a shallow embedding of the
reference-counted kernel object layer.

* A `struct kobject *` is an address (`Nat`, `0` is the null pointer) into a
  store of live `struct kobject` values; a `char *` tag is an address into a
  store of allocated blocks.  Dereferencing an address that holds no live
  object has no defined behaviour in C and is `none` here, and so is a
  division by zero.
* The back ends (`fs_dirent_*`, `device_*`, `window_*`, `console_*`,
  `pipe_*`) are not part of `kobject.c`.  Every call into them is recorded, in
  order and with its arguments, in `State.trace`, and its result and effect on
  the back end come from an arbitrary `Env.exec`.
* The fields `refcount` and `offset` are C `int`s.  They are integers here:
  signed overflow has no defined behaviour in C, so the embedding describes
  the executions in which it does not occur.
-/

namespace Basekernel

/-- The enumeration `kobject_type_t`: the kind of resource behind a kobject. -/
inductive kobject_type_t
  | KOBJECT_FILE
  | KOBJECT_DIR
  | KOBJECT_DEVICE
  | KOBJECT_WINDOW
  | KOBJECT_CONSOLE
  | KOBJECT_PIPE
  deriving DecidableEq

open kobject_type_t

/-- The record `struct kobject`.  The union `data` holds one back-end pointer;
`tag` is a `char *` (`0` when there is no tag). -/
structure kobject where
  data : Int
  type : kobject_type_t
  refcount : Int
  offset : Int
  tag : Nat
  deriving DecidableEq

/-- A call from `kobject.c` into a back end, with its arguments.  Back-end
pointers and `int`s are integers, buffers are addresses, and a `const char *`
name is the list of its bytes before the terminator. -/
inductive Call
  | window_addref (w : Int)
  | console_addref (c : Int)
  | fs_dirent_addref (d : Int)
  | device_addref (d : Int)
  | pipe_addref (p : Int)
  | window_create (parent x y width height : Int)
  | console_create (w : Int)
  | fs_dirent_mkfile (d : Int) (name : List Nat)
  | fs_dirent_mkdir (d : Int) (name : List Nat)
  | window_move (w x y : Int)
  | fs_dirent_read (f : Int) (buffer : Nat) (length offset : Int)
  | fs_dirent_write (f : Int) (buffer : Nat) (length offset : Int)
  | device_block_size (d : Int)
  | device_nblocks (d : Int)
  | device_read (d : Int) (buffer : Nat) (nblocks first : Int)
  | device_read_nonblock (d : Int) (buffer : Nat) (nblocks first : Int)
  | device_write (d : Int) (buffer : Nat) (nblocks first : Int)
  | pipe_read (p : Int) (buffer : Nat) (size : Int)
  | pipe_read_nonblock (p : Int) (buffer : Nat) (size : Int)
  | pipe_write (p : Int) (buffer : Nat) (size : Int)
  | pipe_write_nonblock (p : Int) (buffer : Nat) (size : Int)
  | pipe_flush (p : Int)
  | pipe_size (p : Int)
  | window_read_events (w : Int) (buffer : Nat) (size : Int)
  | window_read_events_nonblock (w : Int) (buffer : Nat) (size : Int)
  | window_post_events (w : Int) (buffer : Nat) (size : Int)
  | window_write_graphics (w : Int) (buffer : Nat) (size : Int)
  | window_width (w : Int)
  | window_height (w : Int)
  | console_read (c : Int) (buffer : Nat) (size : Int)
  | console_read_nonblock (c : Int) (buffer : Nat) (size : Int)
  | console_post (c : Int) (buffer : Nat) (size : Int)
  | console_write (c : Int) (buffer : Nat) (size : Int)
  | console_size (c : Int)
  | fs_dirent_size (d : Int)
  | fs_dirent_list (d : Int) (buffer : Nat) (size : Int)
  | fs_dirent_traverse (d : Int) (name : List Nat)
  | fs_dirent_isdir (d : Int)
  | fs_dirent_remove (d : Int) (name : List Nat)
  | window_delete (w : Int)
  | console_delete (c : Int)
  | fs_dirent_close (d : Int)
  | device_close (d : Int)
  | pipe_delete (p : Int)
  deriving DecidableEq

/-- What `kobject.c` takes from files that are not part of the source: the
back ends (`exec` gives the value a call returns and the back-end state after
it; `console_size` gives the two values that `console_size` stores through its
pointer arguments), the error codes of `kernel/error.h`, the flag bits of
`kernel_io_flags_t`, and `sizeof(struct kobject)`. -/
structure Env (W : Type) where
  exec : W → Call → Int × W
  console_size : W → Int → Int × Int
  KERROR_NOT_FOUND : Int
  KERROR_INVALID_REQUEST : Int
  KERROR_NOT_IMPLEMENTED : Int
  KERROR_NOT_A_DIRECTORY : Int
  KERNEL_IO_NONBLOCK : Nat
  KERNEL_IO_POST : Nat
  sizeof_kobject : Nat

/-- A block of memory holding characters (an allocation obtained from
`kmalloc`, or a buffer of the caller): its size in bytes and the bytes of the
C string stored at its start, terminator excluded. -/
structure Block where
  size : Nat
  bytes : List Nat
  deriving DecidableEq

/-- The kernel state seen by `kobject.c`: the live kobjects, the live
allocations, the next address the allocator hands out, the state of the back
ends and the calls made into them so far. -/
structure State (W : Type) where
  objs : Nat → Option kobject
  mem : Nat → Option Block
  brk : Nat
  world : W
  trace : List Call

/-- A store with the entry at `a` replaced by `v`. -/
def upd {α : Type} (m : Nat → Option α) (a : Nat) (v : Option α) : Nat → Option α :=
  fun x => if x = a then v else m x

/-- The state after `*p = k` for a kobject pointer `p`. -/
def State.setObj {W : Type} (s : State W) (p : Nat) (k : kobject) : State W :=
  { s with objs := upd s.objs p (some k) }

/-- The state after an assignment to fields of `*p`, where `f` rewrites the
fields.  Every use is on a pointer already dereferenced or just returned by
`kobject_create`; on any other address the state is returned as it is. -/
def State.modObj {W : Type} (s : State W) (p : Nat) (f : kobject → kobject) : State W :=
  match s.objs p with
  | some k => s.setObj p (f k)
  | none => s

/-- One call into a back end: the value returned, and the state with the
back end advanced and the call appended to the trace. -/
def call {W : Type} (E : Env W) (c : Call) (s : State W) : Int × State W :=
  ((E.exec s.world c).1, { s with world := (E.exec s.world c).2, trace := s.trace ++ [c] })

/-- Modelled from the spec: the kernel allocator (`kmalloc.c` is not part of
the source; the spec names it as an external collaborator).  `kmalloc(size)`
hands out an address that is not in use and records the size asked for. -/
def kmalloc {W : Type} (s : State W) (size : Nat) : Nat × State W :=
  (s.brk, { s with mem := upd s.mem s.brk (some ⟨size, []⟩), brk := s.brk + 1 })

/-- Modelled from the spec: the kernel allocator's `kfree`, which ends the
life of whatever is stored at `p`. -/
def kfree {W : Type} (s : State W) (p : Nat) : State W :=
  { s with objs := upd s.objs p none, mem := upd s.mem p none }

/-- Modelled from the spec: `strlen` of `string.c` (not part of the source),
the number of bytes before the terminator. -/
def strlen (text : List Nat) : Nat := text.length

/-- Modelled from the spec: `strcpy` of `string.c` (not part of the source).
It stores the bytes of `src` and a terminator, `strlen src + 1` bytes, from
the start of the block at `dst`, whatever the size of that block. -/
def strcpy {W : Type} (s : State W) (dst : Nat) (src : List Nat) : Option (State W) :=
  match s.mem dst with
  | none => none
  | some b => some { s with mem := upd s.mem dst (some { b with bytes := src }) }

/-- Modelled from the spec: `strdup` of `string.c` (not part of the source),
an independently owned duplicate of the string stored at `src`. -/
def strdup {W : Type} (s : State W) (src : Nat) : Option (Nat × State W) :=
  match s.mem src with
  | none => none
  | some b =>
    match strcpy (kmalloc s (strlen b.bytes + 1)).2 (kmalloc s (strlen b.bytes + 1)).1 b.bytes with
    | none => none
    | some s1 => some ((kmalloc s (strlen b.bytes + 1)).1, s1)

/-- The function `kobject_create`.  It leaves `type` unset; every caller
assigns it before the object is used, the value here is a placeholder. -/
def kobject_create {W : Type} (E : Env W) (s : State W) : Nat × State W :=
  ((kmalloc s E.sizeof_kobject).1,
   (kmalloc s E.sizeof_kobject).2.setObj (kmalloc s E.sizeof_kobject).1
     { data := 0, type := KOBJECT_FILE, refcount := 1, offset := 0, tag := 0 })

/-- The shared body of the six constructors `kobject_create_file`, ...,
`kobject_create_pipe`: `k = kobject_create(); k->type = t; k->data.x = r`. -/
def kobject_create_of {W : Type} (E : Env W) (t : kobject_type_t) (s : State W) (r : Int) :
    Nat × State W :=
  ((kobject_create E s).1,
   (kobject_create E s).2.modObj (kobject_create E s).1 fun k => { k with type := t, data := r })

/-- The function `kobject_create_file`. -/
def kobject_create_file {W : Type} (E : Env W) (s : State W) (f : Int) : Nat × State W :=
  kobject_create_of E KOBJECT_FILE s f

/-- The function `kobject_create_dir`. -/
def kobject_create_dir {W : Type} (E : Env W) (s : State W) (d : Int) : Nat × State W :=
  kobject_create_of E KOBJECT_DIR s d

/-- The function `kobject_create_device`. -/
def kobject_create_device {W : Type} (E : Env W) (s : State W) (d : Int) : Nat × State W :=
  kobject_create_of E KOBJECT_DEVICE s d

/-- The function `kobject_create_window`. -/
def kobject_create_window {W : Type} (E : Env W) (s : State W) (g : Int) : Nat × State W :=
  kobject_create_of E KOBJECT_WINDOW s g

/-- The function `kobject_create_console`. -/
def kobject_create_console {W : Type} (E : Env W) (s : State W) (c : Int) : Nat × State W :=
  kobject_create_of E KOBJECT_CONSOLE s c

/-- The function `kobject_create_pipe`. -/
def kobject_create_pipe {W : Type} (E : Env W) (s : State W) (p : Int) : Nat × State W :=
  kobject_create_of E KOBJECT_PIPE s p

/-- The function `kobject_addref`. -/
def kobject_addref {W : Type} (s : State W) (k : Nat) : Option (Nat × State W) :=
  match s.objs k with
  | none => none
  | some o => some (k, s.setObj k { o with refcount := o.refcount + 1 })

/-- The back-end call in the `switch` of `kobject_copy` for each kind. -/
def addref_call (t : kobject_type_t) (r : Int) : Call :=
  match t with
  | KOBJECT_WINDOW => Call.window_addref r
  | KOBJECT_CONSOLE => Call.console_addref r
  | KOBJECT_FILE => Call.fs_dirent_addref r
  | KOBJECT_DIR => Call.fs_dirent_addref r
  | KOBJECT_DEVICE => Call.device_addref r
  | KOBJECT_PIPE => Call.pipe_addref r

/-- The function `kobject_copy`.  `src` is `*ksrc`; `kdst` is a block of its
own, so the fields of `*ksrc` read later in the body are those of `src`. -/
def kobject_copy {W : Type} (E : Env W) (s : State W) (ksrc : Nat) : Option (Nat × State W) :=
  match s.objs ksrc with
  | none => none
  | some src =>
    let kdst := (kobject_create E s).1
    let s1 := (kobject_create E s).2.modObj kdst fun d =>
      { d with data := src.data, type := src.type, offset := src.offset, refcount := 1 }
    let tagged : Option (Nat × State W) := if src.tag ≠ 0 then strdup s1 src.tag else some (0, s1)
    match tagged with
    | none => none
    | some (t, s2) =>
      some (kdst, (call E (addref_call src.type src.data) (s2.modObj kdst fun d => { d with tag := t })).2)

/-- The back-end call in the `switch` of `kobject_close` for each kind. -/
def delete_call (t : kobject_type_t) (r : Int) : Call :=
  match t with
  | KOBJECT_WINDOW => Call.window_delete r
  | KOBJECT_CONSOLE => Call.console_delete r
  | KOBJECT_FILE => Call.fs_dirent_close r
  | KOBJECT_DIR => Call.fs_dirent_close r
  | KOBJECT_DEVICE => Call.device_close r
  | KOBJECT_PIPE => Call.pipe_delete r

/-- The function `kobject_close`. -/
def kobject_close {W : Type} (E : Env W) (s : State W) (p : Nat) : Option (Int × State W) :=
  match s.objs p with
  | none => none
  | some o =>
    let k : kobject := { o with refcount := o.refcount - 1 }
    let s1 := s.setObj p k
    if k.refcount = 0 then
      let s2 := (call E (delete_call k.type k.data) s1).2
      let s3 := if k.tag ≠ 0 then kfree s2 k.tag else s2
      some (0, kfree s3 p)
    else if k.refcount > 1 then
      if k.type = KOBJECT_PIPE then some (0, (call E (Call.pipe_flush k.data) s1).2)
      else some (0, s1)
    else some (0, s1)

/-- The function `kobject_create_window_from_window`; the result `0` is the
null pointer. -/
def kobject_create_window_from_window {W : Type} (E : Env W) (s : State W) (p : Nat)
    (x y width height : Int) : Option (Nat × State W) :=
  match s.objs p with
  | none => none
  | some k =>
    if k.type ≠ KOBJECT_WINDOW then some (0, s)
    else
      let r := call E (Call.window_create k.data x y width height) s
      if r.1 ≠ 0 then some (kobject_create_window E r.2 r.1) else some (0, r.2)

/-- The function `kobject_create_console_from_window`. -/
def kobject_create_console_from_window {W : Type} (E : Env W) (s : State W) (p : Nat) :
    Option (Nat × State W) :=
  match s.objs p with
  | none => none
  | some k =>
    if k.type ≠ KOBJECT_WINDOW then some (0, s)
    else
      let r := call E (Call.console_create k.data) s
      if r.1 = 0 then some (0, r.2) else some (kobject_create_console E r.2 r.1)

/-- The function `kobject_create_file_from_dir`. -/
def kobject_create_file_from_dir {W : Type} (E : Env W) (s : State W) (p : Nat)
    (name : List Nat) : Option (Nat × State W) :=
  match s.objs p with
  | none => none
  | some k =>
    if k.type = KOBJECT_DIR then
      let r := call E (Call.fs_dirent_mkfile k.data name) s
      if r.1 ≠ 0 then some (kobject_create_file E r.2 r.1) else some (0, r.2)
    else some (0, s)

/-- The function `kobject_create_dir_from_dir`. -/
def kobject_create_dir_from_dir {W : Type} (E : Env W) (s : State W) (p : Nat)
    (name : List Nat) : Option (Nat × State W) :=
  match s.objs p with
  | none => none
  | some k =>
    if k.type = KOBJECT_DIR then
      let r := call E (Call.fs_dirent_mkdir k.data name) s
      if r.1 ≠ 0 then some (kobject_create_dir E r.2 r.1) else some (0, r.2)
    else some (0, s)

/-- The function `kobject_move`. -/
def kobject_move {W : Type} (E : Env W) (s : State W) (p : Nat) (x y : Int) :
    Option (Int × State W) :=
  match s.objs p with
  | none => none
  | some k => some (call E (Call.window_move k.data x y) s)

/-- The tail of `kobject_read`: `if(actual > 0) kobject->offset += actual;
return actual;` where `r` is `actual` and the state after the back-end call. -/
def read_finish {W : Type} (p : Nat) (r : Int × State W) : Option (Int × State W) :=
  some (r.1, if r.1 > 0 then r.2.modObj p fun k => { k with offset := k.offset + r.1 } else r.2)

/-- The function `kobject_read`.  The cast `(uint32_t) size` is the residue
modulo `2 ^ 32`; `size / device_block_size(...)` is C division, which rounds
toward zero and is undefined for a zero divisor. -/
def kobject_read {W : Type} (E : Env W) (s : State W) (p : Nat) (buffer : Nat) (size : Int)
    (flags : Nat) : Option (Int × State W) :=
  match s.objs p with
  | none => none
  | some k =>
    match k.type with
    | KOBJECT_FILE =>
      read_finish p (call E (Call.fs_dirent_read k.data buffer (size % 4294967296) k.offset) s)
    | KOBJECT_DIR => some (E.KERROR_INVALID_REQUEST, s)
    | KOBJECT_DEVICE =>
      if flags &&& E.KERNEL_IO_NONBLOCK ≠ 0 then
        let b := call E (Call.device_block_size k.data) s
        if b.1 = 0 then none
        else read_finish p (call E (Call.device_read_nonblock k.data buffer (Int.tdiv size b.1) 0) b.2)
      else
        let b := call E (Call.device_block_size k.data) s
        if b.1 = 0 then none
        else read_finish p (call E (Call.device_read k.data buffer (Int.tdiv size b.1) 0) b.2)
    | KOBJECT_PIPE =>
      if flags &&& E.KERNEL_IO_NONBLOCK ≠ 0 then
        read_finish p (call E (Call.pipe_read_nonblock k.data buffer size) s)
      else
        read_finish p (call E (Call.pipe_read k.data buffer size) s)
    | KOBJECT_WINDOW =>
      if flags &&& E.KERNEL_IO_NONBLOCK ≠ 0 then
        read_finish p (call E (Call.window_read_events_nonblock k.data buffer size) s)
      else
        read_finish p (call E (Call.window_read_events k.data buffer size) s)
    | KOBJECT_CONSOLE =>
      if flags &&& E.KERNEL_IO_NONBLOCK ≠ 0 then
        read_finish p (call E (Call.console_read_nonblock k.data buffer size) s)
      else
        read_finish p (call E (Call.console_read k.data buffer size) s)

/-- The function `kobject_write`. -/
def kobject_write {W : Type} (E : Env W) (s : State W) (p : Nat) (buffer : Nat) (size : Int)
    (flags : Nat) : Option (Int × State W) :=
  match s.objs p with
  | none => none
  | some k =>
    match k.type with
    | KOBJECT_WINDOW =>
      if flags &&& E.KERNEL_IO_POST ≠ 0 then
        some (call E (Call.window_post_events k.data buffer size) s)
      else
        some (call E (Call.window_write_graphics k.data buffer size) s)
    | KOBJECT_CONSOLE =>
      if flags &&& E.KERNEL_IO_POST ≠ 0 then
        some (call E (Call.console_post k.data buffer size) s)
      else
        some (call E (Call.console_write k.data buffer size) s)
    | KOBJECT_FILE =>
      let r := call E (Call.fs_dirent_write k.data buffer (size % 4294967296) k.offset) s
      some (r.1, if r.1 > 0 then r.2.modObj p fun k => { k with offset := k.offset + r.1 } else r.2)
    | KOBJECT_DEVICE =>
      let b := call E (Call.device_block_size k.data) s
      if b.1 = 0 then none
      else some (call E (Call.device_write k.data buffer (Int.tdiv size b.1) 0) b.2)
    | KOBJECT_PIPE =>
      if flags &&& E.KERNEL_IO_NONBLOCK ≠ 0 then
        some (call E (Call.pipe_write_nonblock k.data buffer size) s)
      else
        some (call E (Call.pipe_write k.data buffer size) s)
    | KOBJECT_DIR => some (0, s)

/-- The function `kobject_list`. -/
def kobject_list {W : Type} (E : Env W) (s : State W) (p : Nat) (buffer : Nat) (size : Int) :
    Option (Int × State W) :=
  match s.objs p with
  | none => none
  | some k =>
    if k.type = KOBJECT_DIR then some (call E (Call.fs_dirent_list k.data buffer size) s)
    else some (E.KERROR_NOT_A_DIRECTORY, s)

/-- The function `kobject_lookup`.  `newobj` is the content of the caller's
slot `*newobj` before the call; the result holds the value returned, the
content of the slot after the call and the state. -/
def kobject_lookup {W : Type} (E : Env W) (s : State W) (p : Nat) (name : List Nat)
    (newobj : Nat) : Option (Int × Nat × State W) :=
  match s.objs p with
  | none => none
  | some k =>
    if k.type = KOBJECT_DIR then
      let d := call E (Call.fs_dirent_traverse k.data name) s
      if d.1 ≠ 0 then
        let i := call E (Call.fs_dirent_isdir d.1) d.2
        if i.1 ≠ 0 then some (0, kobject_create_dir E i.2 d.1)
        else some (0, kobject_create_file E i.2 d.1)
      else some (E.KERROR_NOT_FOUND, newobj, d.2)
    else some (E.KERROR_NOT_IMPLEMENTED, newobj, s)

/-- The function `kobject_remove`. -/
def kobject_remove {W : Type} (E : Env W) (s : State W) (p : Nat) (name : List Nat) :
    Option (Int × State W) :=
  match s.objs p with
  | none => none
  | some k =>
    if k.type = KOBJECT_DIR then some (call E (Call.fs_dirent_remove k.data name) s)
    else some (E.KERROR_NOT_IMPLEMENTED, s)

/-- The caller's array `dims` after `dims[i] = v`. -/
def store (dims : Nat → Int) (i : Nat) (v : Int) : Nat → Int :=
  fun j => if j = i then v else dims j

/-- The function `kobject_size`.  `dims` is the caller's array before the
call; the result holds the value returned, the array after the call and the
state. -/
def kobject_size {W : Type} (E : Env W) (s : State W) (p : Nat) (dims : Nat → Int) (n : Int) :
    Option (Int × (Nat → Int) × State W) :=
  match s.objs p with
  | none => none
  | some k =>
    match k.type with
    | KOBJECT_WINDOW =>
      if n = 2 then
        let w := call E (Call.window_width k.data) s
        let h := call E (Call.window_height k.data) w.2
        some (0, store (store dims 0 w.1) 1 h.1, h.2)
      else some (E.KERROR_INVALID_REQUEST, dims, s)
    | KOBJECT_CONSOLE =>
      if n = 2 then
        some (0, store (store dims 0 (E.console_size s.world k.data).1) 1
                   (E.console_size s.world k.data).2,
              (call E (Call.console_size k.data) s).2)
      else some (E.KERROR_INVALID_REQUEST, dims, s)
    | KOBJECT_FILE =>
      if n = 1 then
        let r := call E (Call.fs_dirent_size k.data) s
        some (0, store dims 0 r.1, r.2)
      else some (E.KERROR_INVALID_REQUEST, dims, s)
    | KOBJECT_DIR =>
      if n = 1 then
        let r := call E (Call.fs_dirent_size k.data) s
        some (0, store dims 0 r.1, r.2)
      else some (E.KERROR_INVALID_REQUEST, dims, s)
    | KOBJECT_DEVICE =>
      if n = 2 then
        let c := call E (Call.device_nblocks k.data) s
        let b := call E (Call.device_block_size k.data) c.2
        some (0, store (store dims 0 c.1) 1 b.1, b.2)
      else some (E.KERROR_INVALID_REQUEST, dims, s)
    | KOBJECT_PIPE =>
      if n = 1 then
        let r := call E (Call.pipe_size k.data) s
        some (0, store dims 0 r.1, r.2)
      else some (E.KERROR_INVALID_REQUEST, dims, s)

/-- The function `kobject_get_type`. -/
def kobject_get_type {W : Type} (s : State W) (p : Nat) : Option kobject_type_t :=
  match s.objs p with
  | none => none
  | some k => some k.type

/-- The function `kobject_set_tag`; `new_tag` is the string the argument
points to and `sizeof(char)` is `1`. -/
def kobject_set_tag {W : Type} (s : State W) (p : Nat) (new_tag : List Nat) :
    Option (Int × State W) :=
  match s.objs p with
  | none => none
  | some k =>
    let s1 := if k.tag ≠ 0 then kfree s k.tag else s
    let m := kmalloc s1 (strlen new_tag * 1)
    match strcpy (m.2.modObj p fun o => { o with tag := m.1 }) m.1 new_tag with
    | none => none
    | some s2 => some (1, s2)

set_option linter.unusedVariables false in
/-- The function `kobject_get_tag`; `buffer` is the address of the caller's
block.  The argument `buffer_size` is not read by the body. -/
def kobject_get_tag {W : Type} (s : State W) (p : Nat) (buffer : Nat) (buffer_size : Int) :
    Option (Int × State W) :=
  match s.objs p with
  | none => none
  | some k =>
    if k.tag ≠ 0 then
      match s.mem k.tag with
      | none => none
      | some t =>
        match strcpy s buffer t.bytes with
        | none => none
        | some s1 => some (1, s1)
    else some (0, s)

/-- The calls that release a back-end resource. -/
def is_delete : Call → Bool
  | Call.window_delete _ => true
  | Call.console_delete _ => true
  | Call.fs_dirent_close _ => true
  | Call.device_close _ => true
  | Call.pipe_delete _ => true
  | _ => false

/-- The state after `n` successive calls `kobject_close(p)`. -/
def close_n {W : Type} (E : Env W) (s : State W) (p : Nat) : Nat → Option (State W)
  | 0 => some s
  | n + 1 =>
    match kobject_close E s p with
    | none => none
    | some r => close_n E r.2 p n

/-- The state before any allocation, over a back end in state `w`.  Address
`0` is the null pointer, so the allocator starts at `1`. -/
def State.init {W : Type} (w : W) : State W :=
  { objs := fun _ => none, mem := fun _ => none, brk := 1, world := w, trace := [] }

/-- Nothing lives at an address the allocator has yet to hand out. -/
def State.fresh {W : Type} (s : State W) : Prop :=
  ∀ a, s.brk ≤ a → s.objs a = none ∧ s.mem a = none

/-- The tag of `k` is null or points to a live block that is not a kobject. -/
def tag_ok {W : Type} (s : State W) (k : kobject) : Prop :=
  k.tag ≠ 0 → (s.mem k.tag).isSome = true ∧ s.objs k.tag = none

/-- The back-end primitive that the spec's section 4.2 selects for a read of a
kobject that is not a directory: the directory-entry read at the kobject's
offset for a file, a read of `size / blockSize` whole blocks from block `0`
for a device (`bs` is the block size the device reports), the kind's read
for a pipe, a window or a console, each in its non-blocking variant when the
non-blocking flag is set. -/
def read_primitive {W : Type} (E : Env W) (k : kobject) (buffer : Nat) (size : Int)
    (flags : Nat) (bs : Int) : Call :=
  match k.type with
  | KOBJECT_FILE => Call.fs_dirent_read k.data buffer (size % 4294967296) k.offset
  | KOBJECT_DIR => Call.fs_dirent_read k.data buffer (size % 4294967296) k.offset
  | KOBJECT_DEVICE =>
    if flags &&& E.KERNEL_IO_NONBLOCK ≠ 0 then
      Call.device_read_nonblock k.data buffer (Int.tdiv size bs) 0
    else Call.device_read k.data buffer (Int.tdiv size bs) 0
  | KOBJECT_PIPE =>
    if flags &&& E.KERNEL_IO_NONBLOCK ≠ 0 then Call.pipe_read_nonblock k.data buffer size
    else Call.pipe_read k.data buffer size
  | KOBJECT_WINDOW =>
    if flags &&& E.KERNEL_IO_NONBLOCK ≠ 0 then Call.window_read_events_nonblock k.data buffer size
    else Call.window_read_events k.data buffer size
  | KOBJECT_CONSOLE =>
    if flags &&& E.KERNEL_IO_NONBLOCK ≠ 0 then Call.console_read_nonblock k.data buffer size
    else Call.console_read k.data buffer size

/-- The number of dimensions the spec's table gives for each kind. -/
def dimensionality (t : kobject_type_t) : Int :=
  match t with
  | KOBJECT_WINDOW => 2
  | KOBJECT_CONSOLE => 2
  | KOBJECT_DEVICE => 2
  | KOBJECT_FILE => 1
  | KOBJECT_DIR => 1
  | KOBJECT_PIPE => 1

/-- The data operations performed through one handle. -/
inductive IoOp
  | read (buffer : Nat) (size : Int) (flags : Nat)
  | write (buffer : Nat) (size : Int) (flags : Nat)
  | set_tag (new_tag : List Nat)

/-- The call of `kobject_read`, `kobject_write` or `kobject_set_tag` on the
handle `p`. -/
def run_io {W : Type} (E : Env W) (s : State W) (p : Nat) : IoOp → Option (Int × State W)
  | IoOp.read buffer size flags => kobject_read E s p buffer size flags
  | IoOp.write buffer size flags => kobject_write E s p buffer size flags
  | IoOp.set_tag new_tag => kobject_set_tag s p new_tag

/-- The state after a sequence of data operations, each through the handle
`d` (marked `true`) or the handle `k` (marked `false`). -/
def run_ios {W : Type} (E : Env W) (k d : Nat) : State W → List (Bool × IoOp) → Option (State W)
  | s, [] => some s
  | s, x :: l =>
    match run_io E s (if x.1 then d else k) x.2 with
    | none => none
    | some r => run_ios E k d r.2 l

/-- The kobjects at `k` and `d` are two live kobjects that share no storage:
each tag is null or an address already handed out that is neither kobject,
and the two tags are equal only when both are null. -/
def separate {W : Type} (s : State W) (k d : Nat) : Prop :=
  k ≠ d ∧ k < s.brk ∧ d < s.brk ∧
  ∃ ok od, s.objs k = some ok ∧ s.objs d = some od ∧
    ok.tag < s.brk ∧ od.tag < s.brk ∧ (ok.tag = od.tag → ok.tag = 0) ∧
    (ok.tag ≠ 0 → ok.tag ≠ k ∧ ok.tag ≠ d) ∧ (od.tag ≠ 0 → od.tag ≠ k ∧ od.tag ≠ d)

/-- The string stored in the tag of the kobject at `p`, when it has one. -/
def tag_string {W : Type} (s : State W) (p : Nat) : Option (List Nat) :=
  match s.objs p with
  | none => none
  | some k => if k.tag ≠ 0 then (s.mem k.tag).map Block.bytes else none

/-- A call of the kobject interface, with its arguments. -/
inductive Op
  | create_file (f : Int)
  | create_dir (d : Int)
  | create_device (d : Int)
  | create_window (g : Int)
  | create_console (c : Int)
  | create_pipe (p : Int)
  | create_window_from_window (k : Nat) (x y width height : Int)
  | create_console_from_window (k : Nat)
  | create_file_from_dir (k : Nat) (name : List Nat)
  | create_dir_from_dir (k : Nat) (name : List Nat)
  | addref (k : Nat)
  | copy (k : Nat)
  | move (k : Nat) (x y : Int)
  | read (k : Nat) (buffer : Nat) (size : Int) (flags : Nat)
  | write (k : Nat) (buffer : Nat) (size : Int) (flags : Nat)
  | list (k : Nat) (buffer : Nat) (size : Int)
  | lookup (k : Nat) (name : List Nat) (newobj : Nat)
  | remove (k : Nat) (name : List Nat)
  | close (k : Nat)
  | size (k : Nat) (dims : Nat → Int) (n : Int)
  | set_tag (k : Nat) (new_tag : List Nat)
  | get_tag (k : Nat) (buffer : Nat) (buffer_size : Int)

/-- The state after one call of the kobject interface, `none` when the call
has no defined behaviour. -/
def step {W : Type} (E : Env W) (s : State W) : Op → Option (State W)
  | Op.create_file f => some (kobject_create_file E s f).2
  | Op.create_dir d => some (kobject_create_dir E s d).2
  | Op.create_device d => some (kobject_create_device E s d).2
  | Op.create_window g => some (kobject_create_window E s g).2
  | Op.create_console c => some (kobject_create_console E s c).2
  | Op.create_pipe p => some (kobject_create_pipe E s p).2
  | Op.create_window_from_window k x y width height =>
    (kobject_create_window_from_window E s k x y width height).map fun r => r.2
  | Op.create_console_from_window k =>
    (kobject_create_console_from_window E s k).map fun r => r.2
  | Op.create_file_from_dir k name => (kobject_create_file_from_dir E s k name).map fun r => r.2
  | Op.create_dir_from_dir k name => (kobject_create_dir_from_dir E s k name).map fun r => r.2
  | Op.addref k => (kobject_addref s k).map fun r => r.2
  | Op.copy k => (kobject_copy E s k).map fun r => r.2
  | Op.move k x y => (kobject_move E s k x y).map fun r => r.2
  | Op.read k buffer size flags => (kobject_read E s k buffer size flags).map fun r => r.2
  | Op.write k buffer size flags => (kobject_write E s k buffer size flags).map fun r => r.2
  | Op.list k buffer size => (kobject_list E s k buffer size).map fun r => r.2
  | Op.lookup k name newobj => (kobject_lookup E s k name newobj).map fun r => r.2.2
  | Op.remove k name => (kobject_remove E s k name).map fun r => r.2
  | Op.close k => (kobject_close E s k).map fun r => r.2
  | Op.size k dims n => (kobject_size E s k dims n).map fun r => r.2.2
  | Op.set_tag k new_tag => (kobject_set_tag s k new_tag).map fun r => r.2
  | Op.get_tag k buffer buffer_size => (kobject_get_tag s k buffer buffer_size).map fun r => r.2

/-- The states the kernel reaches from an empty one by calls of the kobject
interface. -/
inductive Reachable {W : Type} (E : Env W) : State W → Prop
  | init (w : W) : Reachable E (State.init w)
  | step (s s1 : State W) (op : Op) : Reachable E s → step E s op = some s1 → Reachable E s1

/-- The invariant of the reachable states: addresses not yet handed out are
unused, every live kobject has a reference count of at least one, and its tag
is an address already handed out at which no kobject lives. -/
def State.ok {W : Type} (s : State W) : Prop :=
  (∀ a, s.brk ≤ a → s.objs a = none) ∧
  ∀ p k, s.objs p = some k → 1 ≤ k.refcount ∧ k.tag < s.brk ∧ (k.tag ≠ 0 → s.objs k.tag = none)

/-- The number of bytes that the string stored in a block occupies, its
terminator included: what `strcpy` wrote into the block. -/
def Block.used (b : Block) : Nat := strlen b.bytes + 1

/-- The state after successive calls of `kobject_set_tag` on the handle `p`,
one for each string of the list, in order. -/
def set_tags {W : Type} (s : State W) (p : Nat) : List (List Nat) → Option (State W)
  | [] => some s
  | t :: l =>
    match kobject_set_tag s p t with
    | none => none
    | some r => set_tags r.2 p l

/-- Every kobject live in `s` is live in `s1`. -/
def keeps {W : Type} (s s1 : State W) : Prop :=
  ∀ q, (s.objs q).isSome = true → (s1.objs q).isSome = true

/-- The three ways in which a call other than `kobject_set_tag` and a
destroying `kobject_close` changes the store of kobjects: not at all, by
rewriting one live kobject without touching its tag and without taking its
reference count below one, or by creating one kobject at the next address
of the allocator, with a tag that is null or a later address. -/
def shape {W : Type} (s s1 : State W) : Prop :=
  (s1.objs = s.objs ∧ s1.brk = s.brk) ∨
  (∃ p k k1, s.objs p = some k ∧ s1.objs = upd s.objs p (some k1) ∧
    (1 ≤ k.refcount → 1 ≤ k1.refcount) ∧ k1.tag = k.tag ∧ s1.brk = s.brk) ∨
  (∃ n, s1.objs = upd s.objs s.brk (some n) ∧ 1 ≤ n.refcount ∧
    (n.tag = 0 ∨ (s.brk < n.tag ∧ n.tag < s1.brk)) ∧ s.brk < s1.brk)

/-- Modelled from the spec: an example back end, used to run the code on
concrete inputs.  Its state is the share count of every resource: an addref
routine adds one to the count of its resource and a release routine takes one
away.  A device has 64 blocks of 512 bytes, a window is 640 by 480, a
traversal finds the entry `40` (a directory) under every name but the empty
one, and every other call returns `4`. -/
def demo_exec (w : Int → Int) (c : Call) : Int × (Int → Int) :=
  match c with
  | Call.window_addref r => (0, fun x => if x = r then w x + 1 else w x)
  | Call.console_addref r => (0, fun x => if x = r then w x + 1 else w x)
  | Call.fs_dirent_addref r => (0, fun x => if x = r then w x + 1 else w x)
  | Call.device_addref r => (0, fun x => if x = r then w x + 1 else w x)
  | Call.pipe_addref r => (0, fun x => if x = r then w x + 1 else w x)
  | Call.window_delete r => (0, fun x => if x = r then w x - 1 else w x)
  | Call.console_delete r => (0, fun x => if x = r then w x - 1 else w x)
  | Call.fs_dirent_close r => (0, fun x => if x = r then w x - 1 else w x)
  | Call.device_close r => (0, fun x => if x = r then w x - 1 else w x)
  | Call.pipe_delete r => (0, fun x => if x = r then w x - 1 else w x)
  | Call.device_block_size _ => (512, w)
  | Call.device_nblocks _ => (64, w)
  | Call.window_width _ => (640, w)
  | Call.window_height _ => (480, w)
  | Call.fs_dirent_traverse _ name => (if name = [] then 0 else 40, w)
  | Call.fs_dirent_isdir d => (if d = 40 then 1 else 0, w)
  | _ => (4, w)

/-- Modelled from the spec: the example environment.  The constants stand for
those of `kernel/error.h` and `kernel/types.h`, which are not part of the
source; their values here are examples. -/
def demo : Env (Int → Int) :=
  { exec := demo_exec
    console_size := fun _ _ => (80, 25)
    KERROR_NOT_FOUND := -1
    KERROR_INVALID_REQUEST := -2
    KERROR_NOT_IMPLEMENTED := -4
    KERROR_NOT_A_DIRECTORY := -7
    KERNEL_IO_NONBLOCK := 1
    KERNEL_IO_POST := 2
    sizeof_kobject := 20 }

/-- An example state: one kobject of type `t` at address `1`, with resource
`7`, reference count `n`, offset `off` and no tag; the resource `7` has share
count `1`. -/
def demo_state (t : kobject_type_t) (n off : Int) : State (Int → Int) :=
  { objs := upd (fun _ => none) 1
      (some { data := 7, type := t, refcount := n, offset := off, tag := 0 })
    mem := upd (fun _ => none) 1 (some ⟨20, []⟩)
    brk := 2
    world := fun x => if x = 7 then 1 else 0
    trace := [] }

/-- An example state: `demo_state t 1 0` in which the caller has a buffer of
`size` bytes at address `2`. -/
def demo_buffer_state (t : kobject_type_t) (size : Nat) : State (Int → Int) :=
  (kmalloc (demo_state t 1 0) size).2

/-- The constant `MAX_WINDOWS` of `user/manager.c`. -/
def MAX_WINDOWS : Nat := 32

/-- The constant `NORMAL_MODE` of `user/manager.c`. -/
def NORMAL_MODE : Nat := 0

/-- The constant `COMMAND_MODE` of `user/manager.c`. -/
def COMMAND_MODE : Nat := 1

/-- The constant `MOVE_MODE` of `user/manager.c`. -/
def MOVE_MODE : Nat := 2

/-- The globals of `user/manager.c` that decide which window has the focus:
the 32-bit `window_bitmap`, `mode` and `active`.  The array `windows`, the
drawing and the system calls neither read nor write them and are left out. -/
structure Manager where
  window_bitmap : Nat
  mode : Nat
  active : Nat
  deriving DecidableEq

/-- The test `window_bitmap & (1 << i)` of `user/manager.c`. -/
def occupied (window_bitmap i : Nat) : Bool :=
  window_bitmap &&& (1 <<< i) != 0

/-- The `for` loop of `new_window` from `j` on, with `fuel = MAX_WINDOWS - j`
iterations left: the value of `i` after the loop, `0xFFFF` when no slot is
free. -/
def new_window_scan (window_bitmap : Nat) : Nat → Nat → Nat
  | 0, _ => 0xFFFF
  | fuel + 1, j =>
    if !occupied window_bitmap j then j else new_window_scan window_bitmap fuel (j + 1)

/-- The function `new_window`, as far as the globals in `Manager` go: the
slot search, the early return and `window_bitmap |= 1 << i`, stored in 32
bits. -/
def new_window (m : Manager) : Manager :=
  if new_window_scan m.window_bitmap MAX_WINDOWS 0 = 0xFFFF then m
  else
    { m with window_bitmap :=
        (m.window_bitmap ||| (1 <<< new_window_scan m.window_bitmap MAX_WINDOWS 0))
          % 4294967296 }

/-- The `for` loop of `next_window` from `i` on, with `fuel = MAX_WINDOWS - i`
iterations left: the slot at which it returns, `none` when it runs to the end. -/
def next_window_scan (window_bitmap : Nat) : Nat → Nat → Option Nat
  | 0, _ => none
  | fuel + 1, i =>
    if occupied window_bitmap i then some i else next_window_scan window_bitmap fuel (i + 1)

/-- The `while (attempt)` loop of `next_window`: the slot assigned to `active`,
`none` when the loop ends with `attempt = 0`. -/
def next_window_attempts (window_bitmap : Nat) : Nat → Nat → Option Nat
  | 0, _ => none
  | attempt + 1, i =>
    match next_window_scan window_bitmap (MAX_WINDOWS - i) i with
    | some j => some j
    | none => next_window_attempts window_bitmap attempt 0

/-- The function `next_window`. -/
def next_window (m : Manager) : Manager :=
  match next_window_attempts m.window_bitmap 2 ((m.active + 1) % MAX_WINDOWS) with
  | some j => { m with active := j }
  | none => m

/-- The function `close_window`, as far as the globals in `Manager` go.  The
mask `~(1 << window)` is `2 ^ 32 - 1 - 2 ^ window` in 32 bits. -/
def close_window (m : Manager) (window : Nat) : Manager :=
  if !occupied m.window_bitmap window then m
  else next_window { m with window_bitmap := m.window_bitmap &&& (4294967295 - (1 <<< window)) }

/-- The globals when the event loop of `main` starts: zero at program start,
then the first `new_window`. -/
def manager_start : Manager :=
  new_window { window_bitmap := 0, mode := NORMAL_MODE, active := 0 }

/-- One key-down event with character code `c` in the event loop of `main`:
the globals after it, `none` when the loop is left (`x` in command mode).
The key codes are `~` 126, tab 9, `q` 113, `m` 109, `n` 110, `x` 120. -/
def key_down (m : Manager) (c : Nat) : Option Manager :=
  if m.mode = COMMAND_MODE then
    if c = 126 then some { m with mode := NORMAL_MODE }
    else if c = 9 then some (next_window m)
    else if c = 113 then some (close_window m m.active)
    else if c = 109 then some { m with mode := MOVE_MODE }
    else if c = 110 then some (next_window (new_window { m with mode := NORMAL_MODE }))
    else if c = 120 then none
    else some m
  else if m.mode = MOVE_MODE then
    if c = 126 then some { m with mode := NORMAL_MODE } else some m
  else
    if c = 126 then some { m with mode := COMMAND_MODE } else some m

/-- The globals the window manager reaches from start-up by key-down events. -/
inductive Running : Manager → Prop
  | start : Running manager_start
  | key (m m1 : Manager) (c : Nat) : Running m → key_down m c = some m1 → Running m1

end Basekernel

/-! Properties of the kernel object layer. -/

namespace Basekernel
open kobject_type_t

@[simp] theorem upd_same {α : Type} (m : Nat → Option α) (a : Nat) (v : Option α) :
    upd m a v a = v := by simp [upd]

theorem upd_ne {α : Type} (m : Nat → Option α) {a x : Nat} (v : Option α) (h : x ≠ a) :
    upd m a v x = m x := by simp [upd, h]

@[simp] theorem setObj_objs {W : Type} (s : State W) (p : Nat) (k : kobject) :
    (s.setObj p k).objs = upd s.objs p (some k) := rfl

@[simp] theorem setObj_mem {W : Type} (s : State W) (p : Nat) (k : kobject) :
    (s.setObj p k).mem = s.mem := rfl

@[simp] theorem setObj_brk {W : Type} (s : State W) (p : Nat) (k : kobject) :
    (s.setObj p k).brk = s.brk := rfl

@[simp] theorem setObj_world {W : Type} (s : State W) (p : Nat) (k : kobject) :
    (s.setObj p k).world = s.world := rfl

@[simp] theorem setObj_trace {W : Type} (s : State W) (p : Nat) (k : kobject) :
    (s.setObj p k).trace = s.trace := rfl

@[simp] theorem call_objs {W : Type} (E : Env W) (c : Call) (s : State W) :
    (call E c s).2.objs = s.objs := rfl

@[simp] theorem call_mem {W : Type} (E : Env W) (c : Call) (s : State W) :
    (call E c s).2.mem = s.mem := rfl

@[simp] theorem call_brk {W : Type} (E : Env W) (c : Call) (s : State W) :
    (call E c s).2.brk = s.brk := rfl

@[simp] theorem call_world {W : Type} (E : Env W) (c : Call) (s : State W) :
    (call E c s).2.world = (E.exec s.world c).2 := rfl

@[simp] theorem call_trace {W : Type} (E : Env W) (c : Call) (s : State W) :
    (call E c s).2.trace = s.trace ++ [c] := rfl

@[simp] theorem call_val {W : Type} (E : Env W) (c : Call) (s : State W) :
    (call E c s).1 = (E.exec s.world c).1 := rfl

@[simp] theorem kfree_objs {W : Type} (s : State W) (p : Nat) :
    (kfree s p).objs = upd s.objs p none := rfl

@[simp] theorem kfree_mem {W : Type} (s : State W) (p : Nat) :
    (kfree s p).mem = upd s.mem p none := rfl

@[simp] theorem kfree_brk {W : Type} (s : State W) (p : Nat) : (kfree s p).brk = s.brk := rfl

@[simp] theorem kfree_world {W : Type} (s : State W) (p : Nat) : (kfree s p).world = s.world := rfl

@[simp] theorem kfree_trace {W : Type} (s : State W) (p : Nat) : (kfree s p).trace = s.trace := rfl

@[simp] theorem kmalloc_val {W : Type} (s : State W) (n : Nat) : (kmalloc s n).1 = s.brk := rfl

@[simp] theorem kmalloc_objs {W : Type} (s : State W) (n : Nat) : (kmalloc s n).2.objs = s.objs := rfl

@[simp] theorem kmalloc_mem {W : Type} (s : State W) (n : Nat) :
    (kmalloc s n).2.mem = upd s.mem s.brk (some ⟨n, []⟩) := rfl

@[simp] theorem kmalloc_brk {W : Type} (s : State W) (n : Nat) : (kmalloc s n).2.brk = s.brk + 1 := rfl

@[simp] theorem kmalloc_world {W : Type} (s : State W) (n : Nat) : (kmalloc s n).2.world = s.world := rfl

@[simp] theorem kmalloc_trace {W : Type} (s : State W) (n : Nat) : (kmalloc s n).2.trace = s.trace := rfl

theorem is_delete_delete_call (t : kobject_type_t) (r : Int) : is_delete (delete_call t r) = true := by
  cases t <;> rfl

theorem close_alive_eq {W : Type} (E : Env W) (s : State W) (p : Nat) (k : kobject)
    (h : s.objs p = some k) (hr : k.refcount - 1 ≠ 0) :
    kobject_close E s p = some (0,
      if 1 < k.refcount - 1 ∧ k.type = KOBJECT_PIPE then
        (call E (Call.pipe_flush k.data) (s.setObj p { k with refcount := k.refcount - 1 })).2
      else s.setObj p { k with refcount := k.refcount - 1 }) := by
  unfold kobject_close
  simp only [h]
  simp only [hr, if_false]
  split_ifs <;> simp_all

theorem close_alive {W : Type} (E : Env W) (s : State W) (p : Nat) (k : kobject)
    (h : s.objs p = some k) (hr : k.refcount - 1 ≠ 0) :
    ∃ s1, kobject_close E s p = some (0, s1) ∧
      s1.objs p = some { k with refcount := k.refcount - 1 } ∧
      s1.trace.filter is_delete = s.trace.filter is_delete ∧
      (s1.trace = if 1 < k.refcount - 1 ∧ k.type = KOBJECT_PIPE then
          s.trace ++ [Call.pipe_flush k.data] else s.trace) ∧
      (∀ q, q ≠ p → s1.objs q = s.objs q) ∧ s1.mem = s.mem ∧ s1.brk = s.brk ∧
      (s1.world = if 1 < k.refcount - 1 ∧ k.type = KOBJECT_PIPE then
          (E.exec s.world (Call.pipe_flush k.data)).2 else s.world) := by
  refine ⟨_, close_alive_eq E s p k h hr, ?_⟩
  split_ifs <;> simp [is_delete] <;> intro q hq <;> simp [upd_ne, hq]

theorem close_last {W : Type} (E : Env W) (s : State W) (p : Nat) (k : kobject)
    (h : s.objs p = some k) (hr : k.refcount = 1) :
    ∃ s1, kobject_close E s p = some (0, s1) ∧ s1.objs p = none ∧
      s1.trace = s.trace ++ [delete_call k.type k.data] ∧
      (∀ q, q ≠ p → q ≠ k.tag → s1.objs q = s.objs q) ∧
      s1.world = (E.exec s.world (delete_call k.type k.data)).2 ∧ s1.brk = s.brk ∧
      (∀ q, q ≠ p → s.objs q = none → s1.objs q = none) ∧
      (k.tag = 0 → ∀ q, q ≠ p → s1.objs q = s.objs q) := by
  unfold kobject_close
  simp only [h]
  simp only [hr, sub_self, if_true]
  refine ⟨_, rfl, ?_, ?_, ?_, ?_, ?_, ?_, ?_⟩
  · simp
  · split_ifs <;> simp
  · intro q hq hqt
    split_ifs <;> simp [upd_ne, hq, hqt]
  · split_ifs <;> simp
  · split_ifs <;> simp
  · intro q hq hn
    split_ifs
    · by_cases hqt : q = k.tag
      · subst hqt; simp [upd_ne, hq]
      · simp [upd_ne, hq, hqt, hn]
    · simp [upd_ne, hq, hn]
  · intro h0 q hq
    simp [h0, upd_ne, hq]

theorem close_n_alive {W α : Type} (E : Env W) (p : Nat) (f : W → α) :
    ∀ (i : Nat) (s : State W) (k : kobject), s.objs p = some k → (i : Int) < k.refcount →
      (∀ w, f (E.exec w (Call.pipe_flush k.data)).2 = f w) →
      ∃ s1, close_n E s p i = some s1 ∧
        s1.objs p = some { k with refcount := k.refcount - i } ∧
        s1.trace.filter is_delete = s.trace.filter is_delete ∧
        (∀ q, q ≠ p → s1.objs q = s.objs q) ∧ s1.mem = s.mem ∧ s1.brk = s.brk ∧
        f s1.world = f s.world := by
  intro i
  induction i with
  | zero =>
    intro s k h _ _
    exact ⟨s, rfl, by simpa using h, rfl, fun _ _ => rfl, rfl, rfl, rfl⟩
  | succ i ih =>
    intro s k h hlt hfl
    obtain ⟨s1, hc, ho, ht, -, hq, hm, hb, hw⟩ :=
      close_alive E s p k h (by push_cast at hlt; omega)
    obtain ⟨s2, hc2, ho2, ht2, hq2, hm2, hb2, hw2⟩ :=
      ih s1 _ ho (by push_cast at hlt; simp only; omega) hfl
    refine ⟨s2, ?_, ?_, ?_, ?_, ?_, ?_, ?_⟩
    · simp [close_n, hc, hc2]
    · rw [ho2]; simp; ring
    · rw [ht2, ht]
    · intro q hne; rw [hq2 q hne, hq q hne]
    · rw [hm2, hm]
    · rw [hb2, hb]
    · rw [hw2, hw]; split_ifs
      · exact hfl _
      · rfl

theorem close_n_last {W α : Type} (E : Env W) (p : Nat) (f : W → α) :
    ∀ (n : Nat) (s : State W) (k : kobject), s.objs p = some k → k.refcount = n + 1 →
      (∀ w, f (E.exec w (Call.pipe_flush k.data)).2 = f w) →
      ∃ s1, close_n E s p (n + 1) = some s1 ∧ s1.objs p = none ∧
        s1.trace.filter is_delete = s.trace.filter is_delete ++ [delete_call k.type k.data] ∧
        (∀ q, q ≠ p → q ≠ k.tag → s1.objs q = s.objs q) ∧
        ∃ w, f w = f s.world ∧ s1.world = (E.exec w (delete_call k.type k.data)).2 := by
  intro n
  induction n with
  | zero =>
    intro s k h hr _
    obtain ⟨s1, hc, ho, ht, hq, hw, -⟩ := close_last E s p k h (by simpa using hr)
    exact ⟨s1, by simp [close_n, hc], ho, by simp [ht, is_delete_delete_call], hq, _, rfl, hw⟩
  | succ n ih =>
    intro s k h hr hfl
    obtain ⟨s1, hc, ho, ht, -, hq, -, -, hw⟩ := close_alive E s p k h (by rw [hr]; omega)
    obtain ⟨s2, hc2, ho2, ht2, hq2, w, hw1, hw2⟩ := ih s1 _ ho (by simp [hr]) hfl
    refine ⟨s2, ?_, ho2, ?_, ?_, w, ?_, hw2⟩
    · rw [close_n, hc]; exact hc2
    · rw [ht2, ht]
    · intro q hne hnt; rw [hq2 q hne hnt, hq q hne]
    · rw [hw1, hw]; split_ifs
      · exact hfl _
      · rfl

/-- C1: a kobject of any kind with reference count `n ≥ 1` at `p` survives
each of the first `n - 1` of `n` successive calls `kobject_close(p)`, none of
which calls a release routine of a back end; the `n`-th call frees it, and
over the `n` calls the only release call is the one for the kind, on the
resource of the kobject.  With reference count `1`, `kobject_addref` followed
by a first `kobject_close` leaves the kobject as it was with nothing
released, and the second `kobject_close` releases the resource and frees the
kobject. -/
theorem kobject_close_destroys_once {W : Type} (E : Env W) (s : State W) (p : Nat) (k : kobject)
    (n : Nat) (h : s.objs p = some k) (hn : 1 ≤ n) (hr : k.refcount = n) :
    (∀ i, i < n → ∃ s1, close_n E s p i = some s1 ∧
        s1.objs p = some { k with refcount := (n : Int) - i } ∧
        s1.trace.filter is_delete = s.trace.filter is_delete) ∧
    (∃ s1, close_n E s p n = some s1 ∧ s1.objs p = none ∧
        s1.trace.filter is_delete = s.trace.filter is_delete ++ [delete_call k.type k.data]) ∧
    (n = 1 → ∃ s1 s2 s3, kobject_addref s p = some (p, s1) ∧
        kobject_close E s1 p = some (0, s2) ∧ s2.objs p = some k ∧ s2.trace = s.trace ∧
        kobject_close E s2 p = some (0, s3) ∧ s3.objs p = none ∧
        s3.trace = s.trace ++ [delete_call k.type k.data]) := by
  refine ⟨?_, ?_, ?_⟩
  · intro i hi
    obtain ⟨s1, h1, h2, h3, -⟩ :=
      close_n_alive E p (fun _ => ()) i s k h (by rw [hr]; exact_mod_cast hi) (fun _ => rfl)
    exact ⟨s1, h1, by rw [h2, hr], h3⟩
  · obtain ⟨m, rfl⟩ : ∃ m, n = m + 1 := ⟨n - 1, by omega⟩
    obtain ⟨s1, h1, h2, h3, -⟩ :=
      close_n_last E p (fun _ => ()) m s k h (by simpa using hr) (fun _ => rfl)
    exact ⟨s1, h1, h2, h3⟩
  · intro h1
    subst h1
    have hk : k.refcount = 1 := by simpa using hr
    have ha : kobject_addref s p = some (p, s.setObj p { k with refcount := k.refcount + 1 }) := by
      simp [kobject_addref, h]
    have ho1 : (s.setObj p { k with refcount := k.refcount + 1 }).objs p
        = some { k with refcount := k.refcount + 1 } := by simp [State.setObj]
    obtain ⟨s2, hc, ho, -, ht, -⟩ := close_alive E _ p _ ho1 (by simp [hk])
    have ho2 : s2.objs p = some k := by
      rw [ho]; cases k; simp
    obtain ⟨s3, hc3, ho3, ht3, -⟩ := close_last E s2 p k ho2 hk
    refine ⟨_, s2, s3, ha, hc, ho2, ?_, hc3, ho3, ?_⟩
    · rw [ht]; simp [hk]
    · rw [ht3, ht]; simp [hk]

/-- Witness for C1: a pipe kobject with reference count `3`. -/
theorem kobject_close_destroys_once_witness :
    (∃ s1, close_n demo (demo_state KOBJECT_PIPE 3 0) 1 2 = some s1 ∧
      s1.objs 1 = some { data := 7, type := KOBJECT_PIPE, refcount := 1, offset := 0, tag := 0 } ∧
      s1.trace.filter is_delete = []) ∧
    (∃ s1, close_n demo (demo_state KOBJECT_PIPE 3 0) 1 3 = some s1 ∧ s1.objs 1 = none ∧
      s1.trace.filter is_delete = [Call.pipe_delete 7]) :=
  ⟨(kobject_close_destroys_once demo (demo_state KOBJECT_PIPE 3 0) 1 _ 3 rfl (by decide) rfl).1 2
      (by decide),
   (kobject_close_destroys_once demo (demo_state KOBJECT_PIPE 3 0) 1 _ 3 rfl (by decide) rfl).2.1⟩

@[simp] theorem upd_upd {α : Type} (m : Nat → Option α) (a : Nat) (v w : Option α) :
    upd (upd m a v) a w = upd m a w := by
  funext x; by_cases hx : x = a <;> simp [upd, hx]

theorem tag_lt_of_fresh {W : Type} (s : State W) (k : kobject) (hf : s.fresh) (ht : tag_ok s k)
    (h0 : k.tag ≠ 0) : k.tag < s.brk := by
  by_contra hge
  have := (hf k.tag (by omega)).2
  have h2 := (ht h0).1
  rw [this] at h2
  simp at h2

theorem lt_of_fresh {W : Type} (s : State W) (p : Nat) (k : kobject) (hf : s.fresh)
    (h : s.objs p = some k) : p < s.brk := by
  by_contra hge
  have := (hf p (by omega)).1
  rw [this] at h
  simp at h

/-- The kobject that `kobject_copy` builds from `src` in state `s`. -/
theorem copy_spec {W : Type} (E : Env W) (s : State W) (ksrc : Nat) (src : kobject)
    (h : s.objs ksrc = some src) (hf : s.fresh) (ht : tag_ok s src) :
    ∃ s1, kobject_copy E s ksrc = some (s.brk, s1) ∧
      s1.objs = upd s.objs s.brk (some
        { data := src.data, type := src.type, refcount := 1, offset := src.offset,
          tag := if src.tag ≠ 0 then s.brk + 1 else 0 }) ∧
      s1.trace = s.trace ++ [addref_call src.type src.data] ∧
      s1.world = (E.exec s.world (addref_call src.type src.data)).2 ∧
      s1.brk = (if src.tag ≠ 0 then s.brk + 2 else s.brk + 1) ∧
      (∀ a, a < s.brk → s1.mem a = s.mem a) ∧
      (∀ a, s1.brk ≤ a → s1.mem a = none) ∧
      (src.tag ≠ 0 → (s1.mem (s.brk + 1)).map Block.bytes = (s.mem src.tag).map Block.bytes) := by
  unfold kobject_copy
  simp only [h]
  by_cases h0 : src.tag = 0
  · simp only [h0, ne_eq, not_true_eq_false, if_false]
    refine ⟨_, rfl, ?_, ?_, ?_, ?_, ?_, ?_⟩
    all_goals simp [kobject_create, State.modObj, upd_same]
    · intro a ha; simp [upd, show a ≠ s.brk by omega]
    · intro a ha; simp [upd, show a ≠ s.brk by omega, (hf a (by omega)).2]
  · simp only [h0, ne_eq, not_false_eq_true, if_true]
    have hlt := tag_lt_of_fresh s src hf ht h0
    obtain ⟨b, hb⟩ := Option.isSome_iff_exists.mp (ht h0).1
    simp [kobject_create, State.modObj, upd_same, strdup, strcpy, upd_ne, hb, hlt.ne]
    refine ⟨?_, ?_⟩
    · intro a ha; simp [upd, show a ≠ s.brk by omega, show a ≠ s.brk + 1 by omega]
    · intro a ha
      simp [upd, show a ≠ s.brk by omega, show a ≠ s.brk + 1 by omega, (hf a (by omega)).2]

theorem demo_state_fresh (t : kobject_type_t) (n off : Int) : (demo_state t n off).fresh := by
  intro a ha
  have h1 : a ≠ 1 := by
    have : 2 ≤ a := ha
    omega
  simp [demo_state, upd, h1]

theorem demo_state_tag_ok (t : kobject_type_t) (n off : Int) :
    tag_ok (demo_state t n off)
      { data := 7, type := t, refcount := n, offset := off, tag := 0 } := by
  intro h; exact absurd rfl h

/-- C2 (as amended): `kobject_copy` returns a new kobject whose offset is the
offset of the source and whose reference count is `1`; the source is left as
it was. -/
theorem kobject_copy_keeps_offset {W : Type} (E : Env W) (s : State W) (ksrc : Nat)
    (src : kobject) (h : s.objs ksrc = some src) (hf : s.fresh) (ht : tag_ok s src) :
    ∃ kdst s1 d, kobject_copy E s ksrc = some (kdst, s1) ∧ s.objs kdst = none ∧
      s1.objs kdst = some d ∧ d.offset = src.offset ∧ d.refcount = 1 ∧
      s1.objs ksrc = some src := by
  obtain ⟨s1, hc, ho, -⟩ := copy_spec E s ksrc src h hf ht
  have hne : ksrc ≠ s.brk := (lt_of_fresh s ksrc src hf h).ne
  refine ⟨s.brk, s1,
    (⟨src.data, src.type, 1, src.offset, if src.tag ≠ 0 then s.brk + 1 else 0⟩ : kobject),
    hc, (hf _ le_rfl).1, ?_, rfl, rfl, ?_⟩
  · rw [ho, upd_same]
  · rw [ho, upd_ne _ _ hne, h]

/-- Witness for C2 (as amended): the copy of a file kobject at offset `5`. -/
theorem kobject_copy_keeps_offset_witness :
    ∃ kdst s1 d, kobject_copy demo (demo_state KOBJECT_FILE 1 5) 1 = some (kdst, s1) ∧
      (demo_state KOBJECT_FILE 1 5).objs kdst = none ∧
      s1.objs kdst = some d ∧ d.offset = 5 ∧ d.refcount = 1 ∧
      s1.objs 1 = some { data := 7, type := KOBJECT_FILE, refcount := 1, offset := 5, tag := 0 } :=
  kobject_copy_keeps_offset demo (demo_state KOBJECT_FILE 1 5) 1 _ rfl
    (demo_state_fresh _ _ _) (demo_state_tag_ok _ _ _)

/-- Counterexample to C2 as stated: the copy of a file kobject whose offset is
`5` has offset `5`, so it is not a kobject with offset `0`. -/
theorem kobject_copy_offset_counterexample :
    (∃ kdst s1 d, kobject_copy demo (demo_state KOBJECT_FILE 1 5) 1 = some (kdst, s1) ∧
      s1.objs kdst = some d ∧ d.offset = 5) ∧
    ¬ ∃ kdst s1 d, kobject_copy demo (demo_state KOBJECT_FILE 1 5) 1 = some (kdst, s1) ∧
      s1.objs kdst = some d ∧ d.offset = 0 ∧ d.refcount = 1 := by
  obtain ⟨s1, hc, ho, -⟩ := copy_spec demo (demo_state KOBJECT_FILE 1 5) 1 _ rfl
    (demo_state_fresh _ _ _) (demo_state_tag_ok _ _ _)
  constructor
  · exact ⟨_, s1, _, hc, by rw [ho, upd_same], rfl⟩
  · rintro ⟨kdst, s2, d, hc2, hd, hoff, -⟩
    rw [hc] at hc2
    simp only [Option.some.injEq, Prod.mk.injEq] at hc2
    obtain ⟨rfl, rfl⟩ := hc2
    rw [ho, upd_same] at hd
    simp only [Option.some.injEq] at hd
    rw [← hd] at hoff
    simp at hoff

/-- C3 (as amended): `kobject_close` on a pipe kobject whose reference count is
at least `2` keeps the kobject, with the count one lower, and calls no release
routine; when the count is still above `1` after the decrement (at least `3`
before the call) the one back-end call it makes is `pipe_flush` on the pipe,
and when the count is `1` after the decrement it makes no back-end call. -/
theorem kobject_close_pipe_flush {W : Type} (E : Env W) (s : State W) (p : Nat) (k : kobject)
    (h : s.objs p = some k) (hp : k.type = KOBJECT_PIPE) (hr : 2 ≤ k.refcount) :
    ∃ s1, kobject_close E s p = some (0, s1) ∧
      s1.objs p = some { k with refcount := k.refcount - 1 } ∧
      (3 ≤ k.refcount → s1.trace = s.trace ++ [Call.pipe_flush k.data]) ∧
      (k.refcount = 2 → s1.trace = s.trace) := by
  obtain ⟨s1, hc, ho, -, ht, -⟩ := close_alive E s p k h (by omega)
  refine ⟨s1, hc, ho, ?_, ?_⟩
  · intro h3
    rw [ht, if_pos ⟨by omega, hp⟩]
  · intro h2
    rw [ht, if_neg (by rw [h2]; simp)]

/-- Witness for C3 (as amended): a pipe kobject with reference count `3`. -/
theorem kobject_close_pipe_flush_witness :
    ∃ s1, kobject_close demo (demo_state KOBJECT_PIPE 3 0) 1 = some (0, s1) ∧
      s1.objs 1 = some { data := 7, type := KOBJECT_PIPE, refcount := 2, offset := 0, tag := 0 } ∧
      s1.trace = [Call.pipe_flush 7] := by
  obtain ⟨s1, h1, h2, h3, -⟩ :=
    kobject_close_pipe_flush demo (demo_state KOBJECT_PIPE 3 0) 1 _ rfl rfl (by decide)
  exact ⟨s1, h1, h2, h3 (by decide)⟩

/-- Counterexample to C3 as stated: `kobject_close` on a pipe kobject with
reference count `2` leaves the count at `1`, above `0`, and makes no back-end
call at all, so it does not flush the pipe. -/
theorem kobject_close_pipe_flush_counterexample :
    (∃ s1, kobject_close demo (demo_state KOBJECT_PIPE 2 0) 1 = some (0, s1) ∧
      s1.objs 1 = some { data := 7, type := KOBJECT_PIPE, refcount := 1, offset := 0, tag := 0 } ∧
      s1.trace = []) ∧
    ¬ ∃ s1, kobject_close demo (demo_state KOBJECT_PIPE 2 0) 1 = some (0, s1) ∧
      s1.trace = [Call.pipe_flush 7] := by
  obtain ⟨s1, hc, ho, -, ht, -⟩ := close_alive demo (demo_state KOBJECT_PIPE 2 0) 1 _ rfl
    (by decide)
  have ht1 : s1.trace = [] := by rw [ht]; rfl
  constructor
  · exact ⟨s1, hc, ho, ht1⟩
  · rintro ⟨s2, hc2, ht2⟩
    rw [hc] at hc2
    simp only [Option.some.injEq, Prod.mk.injEq, true_and] at hc2
    subst hc2
    rw [ht1] at ht2
    simp at ht2

/-- C4: on a kobject that is not a directory, `kobject_list` returns
`KERROR_NOT_A_DIRECTORY`, `kobject_lookup` returns `KERROR_NOT_IMPLEMENTED`
and leaves the caller's slot as it was, and `kobject_remove` returns
`KERROR_NOT_IMPLEMENTED`; on a directory, `kobject_read` returns
`KERROR_INVALID_REQUEST`.  In each case the state after the call is the state
before it: every kobject, the allocator, the back ends and the trace of
back-end calls are unchanged. -/
theorem wrong_kind_is_rejected {W : Type} (E : Env W) (s : State W) (p : Nat) (k : kobject)
    (buffer : Nat) (size : Int) (flags : Nat) (name : List Nat) (newobj : Nat)
    (h : s.objs p = some k) :
    (k.type ≠ KOBJECT_DIR →
      kobject_list E s p buffer size = some (E.KERROR_NOT_A_DIRECTORY, s) ∧
      kobject_lookup E s p name newobj = some (E.KERROR_NOT_IMPLEMENTED, newobj, s) ∧
      kobject_remove E s p name = some (E.KERROR_NOT_IMPLEMENTED, s)) ∧
    (k.type = KOBJECT_DIR →
      kobject_read E s p buffer size flags = some (E.KERROR_INVALID_REQUEST, s)) := by
  constructor
  · intro hk
    simp [kobject_list, kobject_lookup, kobject_remove, h, hk]
  · intro hk
    simp [kobject_read, h, hk]

/-- Witness for C4: a file kobject for the directory operations and a
directory kobject for the read. -/
theorem wrong_kind_is_rejected_witness :
    (kobject_list demo (demo_state KOBJECT_FILE 1 0) 1 9 16
        = some (-7, demo_state KOBJECT_FILE 1 0) ∧
      kobject_lookup demo (demo_state KOBJECT_FILE 1 0) 1 [97] 0
        = some (-4, 0, demo_state KOBJECT_FILE 1 0) ∧
      kobject_remove demo (demo_state KOBJECT_FILE 1 0) 1 [97]
        = some (-4, demo_state KOBJECT_FILE 1 0)) ∧
    kobject_read demo (demo_state KOBJECT_DIR 1 0) 1 9 16 0
      = some (-2, demo_state KOBJECT_DIR 1 0) :=
  ⟨(wrong_kind_is_rejected demo (demo_state KOBJECT_FILE 1 0) 1 _ 9 16 0 [97] 0 rfl).1
      (by decide),
   (wrong_kind_is_rejected demo (demo_state KOBJECT_DIR 1 0) 1 _ 9 16 0 [97] 0 rfl).2 rfl⟩

theorem is_delete_addref_call (t : kobject_type_t) (r : Int) :
    is_delete (addref_call t r) = false := by
  cases t <;> rfl

/-- C5: when the addref routine of a kind adds one to the share count of the
resource, the release routine takes one away and `pipe_flush` leaves it as it
is, `kobject_copy` of a kobject whose resource has share count `c ≥ 1` makes
one back-end call, the addref of the kind on that resource, so the count is
`c + 1`; closing the original as many times as its reference count then frees
it with one release call, the release of the kind on that resource, so the
count is `c` again and at least `1`, and the copy is still a live kobject on
the same resource. -/
theorem copy_then_close_keeps_resource {W : Type} (E : Env W) (share : W → Int) (s : State W)
    (ksrc : Nat) (src : kobject) (n : Nat) (c : Int)
    (h : s.objs ksrc = some src) (hf : s.fresh) (ht : tag_ok s src)
    (hn : 1 ≤ n) (hr : src.refcount = n) (hc : share s.world = c) (hc1 : 1 ≤ c)
    (haddref : ∀ w, share (E.exec w (addref_call src.type src.data)).2 = share w + 1)
    (hdelete : ∀ w, share (E.exec w (delete_call src.type src.data)).2 = share w - 1)
    (hflush : ∀ w, share (E.exec w (Call.pipe_flush src.data)).2 = share w) :
    ∃ kdst s1 s2 d, kobject_copy E s ksrc = some (kdst, s1) ∧
      s1.trace = s.trace ++ [addref_call src.type src.data] ∧
      share s1.world = c + 1 ∧
      close_n E s1 ksrc n = some s2 ∧ s2.objs ksrc = none ∧
      s2.trace.filter is_delete = s.trace.filter is_delete ++ [delete_call src.type src.data] ∧
      share s2.world = c ∧ 1 ≤ share s2.world ∧
      s2.objs kdst = some d ∧ d.data = src.data ∧ d.type = src.type := by
  obtain ⟨s1, hcopy, ho, htr, hw, -⟩ := copy_spec E s ksrc src h hf ht
  have hlt : ksrc < s.brk := lt_of_fresh s ksrc src hf h
  have ho1 : s1.objs ksrc = some src := by rw [ho, upd_ne _ _ hlt.ne, h]
  obtain ⟨m, rfl⟩ : ∃ m, n = m + 1 := ⟨n - 1, by omega⟩
  obtain ⟨s2, hcl, hnone, hdel, hframe, w, hw1, hw2⟩ :=
    close_n_last E ksrc share m s1 src ho1 (by simpa using hr) hflush
  have hs1 : share s1.world = c + 1 := by rw [hw, haddref, hc]
  have hs2 : share s2.world = c := by rw [hw2, hdelete, hw1, hs1]; ring
  have htag : s.brk ≠ src.tag := by
    by_cases h0 : src.tag = 0
    · have := lt_of_fresh s ksrc src hf h
      omega
    · exact (tag_lt_of_fresh s src hf ht h0).ne'
  refine ⟨s.brk, s1, s2,
    (⟨src.data, src.type, 1, src.offset, if src.tag ≠ 0 then s.brk + 1 else 0⟩ : kobject),
    hcopy, htr, hs1, hcl, hnone, ?_, hs2, by rw [hs2]; exact hc1, ?_, rfl, rfl⟩
  · rw [hdel, htr]; simp [is_delete_addref_call]
  · rw [hframe _ hlt.ne' htag, ho, upd_same]

/-- Witness for C5: a pipe kobject with reference count `3` whose pipe has
share count `1` in the example back end. -/
theorem copy_then_close_keeps_resource_witness :
    ∃ kdst s1 s2 d, kobject_copy demo (demo_state KOBJECT_PIPE 3 0) 1 = some (kdst, s1) ∧
      s1.trace = [Call.pipe_addref 7] ∧ s1.world 7 = 1 + 1 ∧
      close_n demo s1 1 3 = some s2 ∧ s2.objs 1 = none ∧
      s2.trace.filter is_delete = [Call.pipe_delete 7] ∧
      s2.world 7 = 1 ∧ 1 ≤ s2.world 7 ∧
      s2.objs kdst = some d ∧ d.data = 7 ∧ d.type = KOBJECT_PIPE :=
  copy_then_close_keeps_resource demo (fun w => w 7) (demo_state KOBJECT_PIPE 3 0) 1 _ 3 1 rfl
    (demo_state_fresh _ _ _) (demo_state_tag_ok _ _ _) (by decide) rfl rfl (by decide)
    (fun w => by simp [demo, demo_exec, addref_call])
    (fun w => by simp [demo, demo_exec, delete_call])
    (fun w => by simp [demo, demo_exec])

/-- C7: `kobject_read` on a live kobject (for a device, one whose block size
is not zero) returns the value reported by the back-end read primitive for the
kind and the non-blocking flag, which is the last back-end call it makes; on
a directory it returns `KERROR_INVALID_REQUEST` without a back-end call.  The
offset of the kobject afterwards is the old offset plus the value returned
when that value is positive, and the old offset otherwise; the other fields
are unchanged. -/
theorem kobject_read_result_and_offset {W : Type} (E : Env W) (s : State W) (p : Nat)
    (k : kobject) (buffer : Nat) (size : Int) (flags : Nat) (h : s.objs p = some k)
    (hb : k.type = KOBJECT_DEVICE → (E.exec s.world (Call.device_block_size k.data)).1 ≠ 0) :
    ∃ r s1, kobject_read E s p buffer size flags = some (r, s1) ∧
      (k.type = KOBJECT_DIR → r = E.KERROR_INVALID_REQUEST ∧ s1 = s) ∧
      (k.type ≠ KOBJECT_DIR →
        s1.objs p = some { k with offset := if 0 < r then k.offset + r else k.offset }) ∧
      (k.type ≠ KOBJECT_DIR → k.type ≠ KOBJECT_DEVICE →
        r = (E.exec s.world (read_primitive E k buffer size flags 0)).1 ∧
        s1.trace = s.trace ++ [read_primitive E k buffer size flags 0]) ∧
      (k.type = KOBJECT_DEVICE →
        r = (E.exec (E.exec s.world (Call.device_block_size k.data)).2
          (read_primitive E k buffer size flags
            (E.exec s.world (Call.device_block_size k.data)).1)).1 ∧
        s1.trace = s.trace ++ [Call.device_block_size k.data,
          read_primitive E k buffer size flags
            (E.exec s.world (Call.device_block_size k.data)).1]) := by
  obtain ⟨data, type, rc, off, tag⟩ := k
  unfold kobject_read
  simp only [h]
  cases type
  all_goals simp only [read_finish, read_primitive, State.modObj, call_objs, call_val, h]
  case KOBJECT_DEVICE =>
    have hb1 := hb rfl
    simp only at hb1
    simp only [hb1, if_false]
    split_ifs <;> refine ⟨_, _, rfl, ?_⟩ <;> simp_all <;> split_ifs <;> omega
  all_goals try split_ifs
  all_goals refine ⟨_, _, rfl, ?_⟩
  all_goals simp_all
  all_goals split_ifs <;> omega

/-- Witness for C7: a read of 100 bytes through a file kobject at offset `10`,
from a back end that reports `4` bytes. -/
theorem kobject_read_result_and_offset_witness :
    ∃ s1, kobject_read demo (demo_state KOBJECT_FILE 1 10) 1 9 100 0 = some (4, s1) ∧
      s1.objs 1 = some { data := 7, type := KOBJECT_FILE, refcount := 1, offset := 14, tag := 0 } ∧
      s1.trace = [Call.fs_dirent_read 7 9 100 10] := by
  obtain ⟨r, s1, h1, -, h2, h3, -⟩ := kobject_read_result_and_offset demo
    (demo_state KOBJECT_FILE 1 10) 1 _ 9 100 0 rfl (by intro h; cases h)
  obtain ⟨hr, ht⟩ := h3 (by decide) (by decide)
  have hr4 : r = 4 := hr
  subst hr4
  exact ⟨s1, h1, h2 (by decide), ht⟩

/-- C9: when `KERROR_INVALID_REQUEST` is not `0`, `kobject_size` returns `0`
exactly when `n` is the number of dimensions of the kind (2 for a window, a
console and a device, 1 for a file, a directory and a pipe).  With any other
`n` it returns `KERROR_INVALID_REQUEST` and leaves `dims` and the state as
they were.  With the right `n` it stores what the back end reports, width and
height for a window, columns and rows for a console, the size for a file, a
directory and a pipe, the block count and the block size for a device, in
the first entries of `dims` and leaves the other entries as they were. -/
theorem kobject_size_dims {W : Type} (E : Env W) (s : State W) (p : Nat) (k : kobject)
    (dims : Nat → Int) (n : Int) (h : s.objs p = some k)
    (herr : E.KERROR_INVALID_REQUEST ≠ 0) :
    ∃ r dims1 s1, kobject_size E s p dims n = some (r, dims1, s1) ∧
      (r = 0 ↔ n = dimensionality k.type) ∧
      (n ≠ dimensionality k.type → r = E.KERROR_INVALID_REQUEST ∧ dims1 = dims ∧ s1 = s) ∧
      (n = dimensionality k.type →
        (∀ j, (dimensionality k.type).toNat ≤ j → dims1 j = dims j) ∧
        s1.objs = s.objs ∧
        (k.type = KOBJECT_WINDOW →
          dims1 0 = (E.exec s.world (Call.window_width k.data)).1 ∧
          dims1 1 = (E.exec (E.exec s.world (Call.window_width k.data)).2
            (Call.window_height k.data)).1) ∧
        (k.type = KOBJECT_CONSOLE →
          dims1 0 = (E.console_size s.world k.data).1 ∧
          dims1 1 = (E.console_size s.world k.data).2) ∧
        (k.type = KOBJECT_FILE ∨ k.type = KOBJECT_DIR →
          dims1 0 = (E.exec s.world (Call.fs_dirent_size k.data)).1) ∧
        (k.type = KOBJECT_PIPE → dims1 0 = (E.exec s.world (Call.pipe_size k.data)).1) ∧
        (k.type = KOBJECT_DEVICE →
          dims1 0 = (E.exec s.world (Call.device_nblocks k.data)).1 ∧
          dims1 1 = (E.exec (E.exec s.world (Call.device_nblocks k.data)).2
            (Call.device_block_size k.data)).1)) := by
  obtain ⟨data, type, rc, off, tag⟩ := k
  unfold kobject_size
  simp only [h]
  cases type
  all_goals simp only [dimensionality]
  all_goals split_ifs with hn
  all_goals refine ⟨_, _, _, rfl, ?_⟩
  all_goals simp [hn, store, herr]
  all_goals intro j hj
  all_goals first | (intro h0; omega) | rw [if_neg (by omega), if_neg (by omega)]

/-- Witness for C9: the size of a window kobject, asked with `n = 2`. -/
theorem kobject_size_dims_witness :
    ∃ dims1 s1, kobject_size demo (demo_state KOBJECT_WINDOW 1 0) 1 (fun _ => 0) 2
        = some (0, dims1, s1) ∧ dims1 0 = 640 ∧ dims1 1 = 480 := by
  obtain ⟨r, dims1, s1, h1, h2, -, h3⟩ := kobject_size_dims demo
    (demo_state KOBJECT_WINDOW 1 0) 1 _ (fun _ => 0) 2 rfl (by decide)
  have hr : r = 0 := h2.mpr rfl
  subst hr
  exact ⟨dims1, s1, h1, (h3 rfl).2.2.1 rfl⟩

theorem create_of_eq {W : Type} (E : Env W) (t : kobject_type_t) (s : State W) (r : Int) :
    kobject_create_of E t s r = (s.brk, (kobject_create_of E t s r).2) := rfl

@[simp] theorem create_of_val {W : Type} (E : Env W) (t : kobject_type_t) (s : State W) (r : Int) :
    (kobject_create_of E t s r).1 = s.brk := rfl

@[simp] theorem create_of_objs {W : Type} (E : Env W) (t : kobject_type_t) (s : State W)
    (r : Int) : (kobject_create_of E t s r).2.objs = upd s.objs s.brk
      (some { data := r, type := t, refcount := 1, offset := 0, tag := 0 }) := by
  simp [kobject_create_of, kobject_create, State.modObj]

@[simp] theorem create_of_mem {W : Type} (E : Env W) (t : kobject_type_t) (s : State W)
    (r : Int) : (kobject_create_of E t s r).2.mem
      = upd s.mem s.brk (some ⟨E.sizeof_kobject, []⟩) := by
  simp [kobject_create_of, kobject_create, State.modObj]

@[simp] theorem create_of_brk {W : Type} (E : Env W) (t : kobject_type_t) (s : State W)
    (r : Int) : (kobject_create_of E t s r).2.brk = s.brk + 1 := by
  simp [kobject_create_of, kobject_create, State.modObj]

@[simp] theorem create_of_world {W : Type} (E : Env W) (t : kobject_type_t) (s : State W)
    (r : Int) : (kobject_create_of E t s r).2.world = s.world := by
  simp [kobject_create_of, kobject_create, State.modObj]

@[simp] theorem create_of_trace {W : Type} (E : Env W) (t : kobject_type_t) (s : State W)
    (r : Int) : (kobject_create_of E t s r).2.trace = s.trace := by
  simp [kobject_create_of, kobject_create, State.modObj]

/-- C10: on a directory kobject, when the traversal of the back end finds an
entry, `kobject_lookup` returns `0` and stores in the caller's slot a new
kobject with reference count `1`, offset `0` and no tag on that entry, a
directory when `fs_dirent_isdir` reports one and a file otherwise; when the
traversal finds nothing it returns `KERROR_NOT_FOUND`, leaves the slot as it
was and creates no kobject.  The directory kobject, and every other kobject,
is unchanged in both cases. -/
theorem kobject_lookup_directory {W : Type} (E : Env W) (s : State W) (p : Nat) (k : kobject)
    (name : List Nat) (newobj : Nat) (h : s.objs p = some k) (hd : k.type = KOBJECT_DIR)
    (hf : s.fresh) :
    ((E.exec s.world (Call.fs_dirent_traverse k.data name)).1 ≠ 0 →
      ∃ q s1, kobject_lookup E s p name newobj = some (0, q, s1) ∧ s.objs q = none ∧
        s1.objs q = some
          { data := (E.exec s.world (Call.fs_dirent_traverse k.data name)).1,
            type := if (E.exec (E.exec s.world (Call.fs_dirent_traverse k.data name)).2
                (Call.fs_dirent_isdir (E.exec s.world (Call.fs_dirent_traverse k.data name)).1)).1
                ≠ 0 then KOBJECT_DIR else KOBJECT_FILE,
            refcount := 1, offset := 0, tag := 0 } ∧
        s1.objs p = some k ∧ ∀ a, a ≠ q → s1.objs a = s.objs a) ∧
    ((E.exec s.world (Call.fs_dirent_traverse k.data name)).1 = 0 →
      ∃ s1, kobject_lookup E s p name newobj = some (E.KERROR_NOT_FOUND, newobj, s1) ∧
        s1.objs = s.objs ∧ s1.mem = s.mem ∧ s1.brk = s.brk) := by
  have hlt : p ≠ s.brk := (lt_of_fresh s p k hf h).ne
  unfold kobject_lookup
  simp only [h, hd, if_true]
  constructor
  · intro hfound
    simp only [call_val, call_world, hfound, ne_eq, not_false_eq_true, if_true]
    by_cases hdir : (E.exec (E.exec s.world (Call.fs_dirent_traverse k.data name)).2
        (Call.fs_dirent_isdir (E.exec s.world (Call.fs_dirent_traverse k.data name)).1)).1 = 0
    · simp only [hdir, not_true_eq_false, if_false]
      rw [kobject_create_file, create_of_eq]
      refine ⟨_, _, rfl, ?_⟩
      simp only [kobject_create_file, create_of_val, create_of_objs, call_brk, call_objs,
        upd_same, (hf _ le_rfl).1, upd_ne _ _ hlt, h, true_and]
      intro a ha; rw [upd_ne _ _ ha]
    · simp only [hdir, not_false_eq_true, if_true]
      rw [kobject_create_dir, create_of_eq]
      refine ⟨_, _, rfl, ?_⟩
      simp only [kobject_create_dir, create_of_val, create_of_objs, call_brk, call_objs,
        upd_same, (hf _ le_rfl).1, upd_ne _ _ hlt, h, true_and]
      intro a ha; rw [upd_ne _ _ ha]
  · intro hnone
    simp [hnone]

/-- Witness for C10: a lookup of the name `a` under a directory kobject, where
the back end of the examples finds the directory entry `40`. -/
theorem kobject_lookup_directory_witness :
    ∃ q s1, kobject_lookup demo (demo_state KOBJECT_DIR 1 0) 1 [97] 0 = some (0, q, s1) ∧
      (demo_state KOBJECT_DIR 1 0).objs q = none ∧
      s1.objs q = some { data := 40, type := KOBJECT_DIR, refcount := 1, offset := 0, tag := 0 } ∧
      s1.objs 1 = some { data := 7, type := KOBJECT_DIR, refcount := 1, offset := 0, tag := 0 } ∧
      ∀ a, a ≠ q → s1.objs a = (demo_state KOBJECT_DIR 1 0).objs a :=
  (kobject_lookup_directory demo (demo_state KOBJECT_DIR 1 0) 1 _ [97] 0 rfl rfl
    (demo_state_fresh _ _ _)).1 (by decide)

theorem upd_self {α : Type} (m : Nat → Option α) (a : Nat) (v : Option α) (h : m a = v) :
    upd m a v = m := by
  funext x; by_cases hx : x = a
  · subst hx; simp [upd, h]
  · simp [upd, hx]

/-- What `kobject_read` changes: at most the offset of the kobject read. -/
theorem read_effect {W : Type} (E : Env W) (s s1 : State W) (p : Nat) (k : kobject)
    (buffer : Nat) (size : Int) (flags : Nat) (r : Int) (h : s.objs p = some k)
    (hr : kobject_read E s p buffer size flags = some (r, s1)) :
    (∃ o, s1.objs = upd s.objs p (some { k with offset := o })) ∧ s1.mem = s.mem ∧
      s1.brk = s.brk := by
  obtain ⟨data, type, rc, off, tag⟩ := k
  unfold kobject_read at hr
  simp only [h] at hr
  cases type
  all_goals simp only [read_finish, State.modObj, call_objs, call_val, h] at hr
  case KOBJECT_DIR =>
    simp only [Option.some.injEq, Prod.mk.injEq] at hr
    obtain ⟨-, rfl⟩ := hr
    exact ⟨⟨off, (upd_self _ _ _ h).symm⟩, rfl, rfl⟩
  all_goals split_ifs at hr
  all_goals simp only [Option.some.injEq, Prod.mk.injEq, reduceCtorEq] at hr
  all_goals obtain ⟨-, rfl⟩ := hr
  all_goals first
    | exact ⟨⟨_, rfl⟩, rfl, rfl⟩
    | exact ⟨⟨off, (upd_self _ _ _ h).symm⟩, rfl, rfl⟩

/-- What `kobject_write` changes: at most the offset of the kobject written. -/
theorem write_effect {W : Type} (E : Env W) (s s1 : State W) (p : Nat) (k : kobject)
    (buffer : Nat) (size : Int) (flags : Nat) (r : Int) (h : s.objs p = some k)
    (hr : kobject_write E s p buffer size flags = some (r, s1)) :
    (∃ o, s1.objs = upd s.objs p (some { k with offset := o })) ∧ s1.mem = s.mem ∧
      s1.brk = s.brk := by
  obtain ⟨data, type, rc, off, tag⟩ := k
  unfold kobject_write at hr
  simp only [h] at hr
  cases type
  all_goals simp only [State.modObj, call_objs, call_val, h] at hr
  all_goals try split_ifs at hr
  all_goals simp only [Option.some.injEq, Prod.mk.injEq, reduceCtorEq] at hr
  all_goals obtain ⟨-, rfl⟩ := hr
  all_goals first
    | exact ⟨⟨_, rfl⟩, rfl, rfl⟩
    | exact ⟨⟨off, (upd_self _ _ _ h).symm⟩, rfl, rfl⟩

/-- What `kobject_set_tag` does on a kobject whose tag is not the kobject
itself. -/
theorem set_tag_spec {W : Type} (s : State W) (p : Nat) (k : kobject) (t : List Nat)
    (h : s.objs p = some k) (hself : k.tag ≠ 0 → k.tag ≠ p) :
    ∃ s1, kobject_set_tag s p t = some (1, s1) ∧
      s1.objs p = some { k with tag := s.brk } ∧
      (∀ q, q ≠ p → (k.tag ≠ 0 → q ≠ k.tag) → s1.objs q = s.objs q) ∧
      (∀ q, q ≠ p → s.objs q = none → s1.objs q = none) ∧
      (∀ a, (k.tag ≠ 0 → a ≠ k.tag) → a ≠ s.brk → s1.mem a = s.mem a) ∧
      s1.mem s.brk = some ⟨strlen t * 1, t⟩ ∧ s1.brk = s.brk + 1 ∧
      s1.world = s.world ∧ s1.trace = s.trace := by
  unfold kobject_set_tag
  simp only [h]
  by_cases h0 : k.tag = 0
  · simp only [h0, ne_eq, not_true_eq_false, if_false]
    simp [strcpy, State.modObj, h]
    refine ⟨?_, ?_, ?_⟩
    · intro q hq; simp [upd_ne, hq]
    · intro q hq hn; simp [upd_ne, hq, hn]
    · intro a ha; simp [upd_ne, ha]
  · have hp : p ≠ k.tag := fun e => hself h0 e.symm
    simp only [h0, ne_eq, not_false_eq_true, if_true]
    simp [strcpy, State.modObj, h, upd_ne, hp]
    refine ⟨?_, ?_, ?_⟩
    · intro q hq hqt; simp [upd_ne, hq, hqt]
    · intro q hq hn
      by_cases hqt : q = k.tag
      · subst hqt; simp [upd_ne, hq]
      · simp [upd_ne, hq, hqt, hn]
    · intro a ha hb; simp [upd_ne, ha, hb]

theorem separate_symm {W : Type} (s : State W) (k d : Nat) (h : separate s k d) :
    separate s d k := by
  obtain ⟨hne, hk, hd, ok, od, h1, h2, h3, h4, h5, h6, h7⟩ := h
  refine ⟨hne.symm, hd, hk, od, ok, h2, h1, h4, h3, ?_, ?_, ?_⟩
  · intro e; rw [e]; exact h5 e.symm
  · intro h0; exact ⟨(h7 h0).2, (h7 h0).1⟩
  · intro h0; exact ⟨(h6 h0).2, (h6 h0).1⟩

theorem tag_string_eq {W : Type} (s s1 : State W) (p : Nat) (k : kobject)
    (h : s.objs p = some k) (h1 : s1.objs p = some k) (hm : k.tag ≠ 0 → s1.mem k.tag = s.mem k.tag) :
    tag_string s1 p = tag_string s p := by
  unfold tag_string
  rw [h, h1]
  by_cases h0 : k.tag = 0
  · simp [h0]
  · simp [h0, hm h0]

/-- One data operation through `d` leaves the kobject at `k` and the string of
its tag as they were, and the two kobjects stay separate. -/
theorem separate_step {W : Type} (E : Env W) (s s1 : State W) (k d : Nat) (op : IoOp) (r : Int)
    (hs : separate s k d) (hr : run_io E s d op = some (r, s1)) :
    s1.objs k = s.objs k ∧ tag_string s1 k = tag_string s k ∧ separate s1 k d := by
  obtain ⟨hne, hk, hd, ok, od, h1, h2, h3, h4, h5, h6, h7⟩ := hs
  cases op with
  | read buffer size flags =>
    obtain ⟨⟨o, ho⟩, hm, hb⟩ := read_effect E s s1 d od buffer size flags r h2 hr
    have hk1 : s1.objs k = some ok := by rw [ho, upd_ne _ _ hne, h1]
    refine ⟨by rw [hk1, h1], tag_string_eq s s1 k ok h1 hk1 (fun _ => by rw [hm]), hne, ?_, ?_,
      ok, ({ od with offset := o } : kobject), hk1, by rw [ho, upd_same], ?_, ?_, h5, h6, h7⟩
      <;> rw [hb] <;> assumption
  | write buffer size flags =>
    obtain ⟨⟨o, ho⟩, hm, hb⟩ := write_effect E s s1 d od buffer size flags r h2 hr
    have hk1 : s1.objs k = some ok := by rw [ho, upd_ne _ _ hne, h1]
    refine ⟨by rw [hk1, h1], tag_string_eq s s1 k ok h1 hk1 (fun _ => by rw [hm]), hne, ?_, ?_,
      ok, ({ od with offset := o } : kobject), hk1, by rw [ho, upd_same], ?_, ?_, h5, h6, h7⟩
      <;> rw [hb] <;> assumption
  | set_tag t =>
    obtain ⟨s2, hst, hod, hfr, -, hmem, -, hb, -⟩ :=
      set_tag_spec s d od t h2 (fun h0 => (h7 h0).2)
    have e : s1 = s2 := by
      have := hr.symm.trans hst
      simp only [run_io, Option.some.injEq, Prod.mk.injEq] at this
      exact this.2
    subst e
    have hk1 : s1.objs k = some ok := by
      rw [hfr k hne (fun h0 e => (h7 h0).1 e.symm), h1]
    refine ⟨by rw [hk1, h1], tag_string_eq s s1 k ok h1 hk1 ?_, hne, ?_, ?_,
      ok, ({ od with tag := s.brk } : kobject), hk1, hod, ?_, ?_, ?_, h6, ?_⟩
    · intro h0
      exact hmem _ (fun h0d e => h0 (h5 e)) (by omega)
    · rw [hb]; omega
    · rw [hb]; omega
    · rw [hb]; omega
    · rw [hb]; simp
    · intro e; simp only at e; omega
    · intro _; simp only; omega

theorem read_defined {W : Type} (E : Env W) (s : State W) (p : Nat) (k : kobject)
    (buffer : Nat) (size : Int) (flags : Nat) (h : s.objs p = some k)
    (hk : k.type ≠ KOBJECT_DEVICE) :
    (kobject_read E s p buffer size flags).isSome = true := by
  obtain ⟨data, type, rc, off, tag⟩ := k
  unfold kobject_read
  simp only [h]
  cases type
  all_goals simp only [read_finish]
  all_goals first
    | exact absurd rfl hk
    | rfl
    | (split_ifs <;> rfl)

theorem write_defined {W : Type} (E : Env W) (s : State W) (p : Nat) (k : kobject)
    (buffer : Nat) (size : Int) (flags : Nat) (h : s.objs p = some k)
    (hk : k.type ≠ KOBJECT_DEVICE) :
    (kobject_write E s p buffer size flags).isSome = true := by
  obtain ⟨data, type, rc, off, tag⟩ := k
  unfold kobject_write
  simp only [h]
  cases type
  all_goals first
    | exact absurd rfl hk
    | rfl
    | (split_ifs <;> rfl)

/-- A data operation through a handle of a kind other than a device is
defined. -/
theorem run_io_defined {W : Type} (E : Env W) (s : State W) (k d : Nat) (od : kobject)
    (op : IoOp) (hs : separate s k d) (h : s.objs d = some od) (ht : od.type ≠ KOBJECT_DEVICE) :
    (run_io E s d op).isSome = true := by
  cases op with
  | read buffer size flags => exact read_defined E s d od buffer size flags h ht
  | write buffer size flags => exact write_defined E s d od buffer size flags h ht
  | set_tag t =>
    obtain ⟨-, -, -, ok, od1, -, h2, -, -, -, -, h7⟩ := hs
    rw [h] at h2
    simp only [Option.some.injEq] at h2
    subst h2
    obtain ⟨s2, hst, -⟩ := set_tag_spec s d od t h (fun h0 => (h7 h0).2)
    simp [run_io, hst]

theorem separate_step_type {W : Type} (E : Env W) (s s1 : State W) (k d : Nat) (op : IoOp)
    (r : Int) (hs : separate s k d) (hr : run_io E s d op = some (r, s1)) :
    (s1.objs d).map kobject.type = (s.objs d).map kobject.type := by
  obtain ⟨hne, hk, hd, ok, od, h1, h2, h3, h4, h5, h6, h7⟩ := hs
  cases op with
  | read buffer size flags =>
    obtain ⟨⟨o, ho⟩, -⟩ := read_effect E s s1 d od buffer size flags r h2 hr
    rw [ho, upd_same, h2]; rfl
  | write buffer size flags =>
    obtain ⟨⟨o, ho⟩, -⟩ := write_effect E s s1 d od buffer size flags r h2 hr
    rw [ho, upd_same, h2]; rfl
  | set_tag t =>
    obtain ⟨s2, hst, hod, -⟩ := set_tag_spec s d od t h2 (fun h0 => (h7 h0).2)
    have e : s1 = s2 := by
      have := hr.symm.trans hst
      simp only [run_io, Option.some.injEq, Prod.mk.injEq] at this
      exact this.2
    subst e
    rw [hod, h2]; rfl

theorem separate_run {W : Type} (E : Env W) (k d : Nat) :
    ∀ (l : List (Bool × IoOp)) (s s2 : State W), separate s k d →
      run_ios E k d s l = some s2 →
      separate s2 k d ∧ (s2.objs k).map kobject.type = (s.objs k).map kobject.type ∧
        (s2.objs d).map kobject.type = (s.objs d).map kobject.type := by
  intro l
  induction l with
  | nil =>
    intro s s2 hs hr
    simp only [run_ios, Option.some.injEq] at hr
    subst hr
    exact ⟨hs, rfl, rfl⟩
  | cons x l ih =>
    intro s s2 hs hr
    simp only [run_ios] at hr
    cases hx : run_io E s (if x.1 = true then d else k) x.2 with
    | none => rw [hx] at hr; simp at hr
    | some r1 =>
      rw [hx] at hr
      simp only at hr
      by_cases hb : x.1 = true
      · simp only [hb, if_true] at hx
        obtain ⟨hk1, -, hs1⟩ := separate_step E s r1.2 k d x.2 r1.1 hs hx
        have ht1 := separate_step_type E s r1.2 k d x.2 r1.1 hs hx
        obtain ⟨hs2, hk2, hd2⟩ := ih r1.2 s2 hs1 hr
        exact ⟨hs2, by rw [hk2, hk1], by rw [hd2, ht1]⟩
      · simp only [hb, if_false] at hx
        have hsw := separate_symm s k d hs
        obtain ⟨hd1, -, hs1⟩ := separate_step E s r1.2 d k x.2 r1.1 hsw hx
        have ht1 := separate_step_type E s r1.2 d k x.2 r1.1 hsw hx
        obtain ⟨hs2, hk2, hd2⟩ := ih r1.2 s2 (separate_symm _ _ _ hs1) hr
        exact ⟨hs2, by rw [hk2, ht1], by rw [hd2, hd1]⟩

/-- After `kobject_copy` the source and the copy are separate. -/
theorem copy_separate {W : Type} (E : Env W) (s s1 : State W) (k : Nat) (src : kobject)
    (h : s.objs k = some src) (hf : s.fresh) (ht : tag_ok s src)
    (hc : kobject_copy E s k = some (s.brk, s1)) :
    separate s1 k s.brk ∧ (s1.objs k).map kobject.type = some src.type ∧
      (s1.objs s.brk).map kobject.type = some src.type := by
  obtain ⟨s2, hcopy, ho, -, -, hb, -⟩ := copy_spec E s k src h hf ht
  have e : s1 = s2 := by
    have := hc.symm.trans hcopy
    simp only [Option.some.injEq, Prod.mk.injEq, true_and] at this
    exact this
  subst e
  have hlt : k < s.brk := lt_of_fresh s k src hf h
  have hk1 : s1.objs k = some src := by rw [ho, upd_ne _ _ hlt.ne, h]
  have hd1 := congrFun ho s.brk
  rw [upd_same] at hd1
  refine ⟨⟨hlt.ne, ?_, ?_, src, _, hk1, hd1, ?_, ?_, ?_, ?_, ?_⟩, by rw [hk1]; rfl, by rw [hd1]; rfl⟩
  all_goals by_cases h0 : src.tag = 0
  all_goals (try have hlt2 := tag_lt_of_fresh s src hf ht h0)
  all_goals (try have hno := (ht h0).2)
  all_goals simp only [hb, h0, ne_eq, not_true_eq_false, not_false_eq_true, if_true, if_false]
  all_goals first
    | omega
    | (intro e; omega)
    | (intro hF; exact hF.elim)
    | (intro _; trivial)
    | (intro _
       refine ⟨fun e => ?_, by omega⟩
       rw [e, h] at hno
       simp at hno)

/-- C6: `kobject_copy` of a live kobject `k` gives a kobject `d` at another
address, and in every state reached from there by reads, writes and
`kobject_set_tag` calls through the two handles, a read, a write or a
`kobject_set_tag` through `d` leaves the kobject at `k` (its offset, reference
count and tag pointer among its fields) and the string of its tag as they
were, and one through `k` leaves those of `d` as they were.  Such a call is
defined through either handle when the kind is not a device. -/
theorem copy_is_independent {W : Type} (E : Env W) (s : State W) (k : Nat) (src : kobject)
    (h : s.objs k = some src) (hf : s.fresh) (ht : tag_ok s src) :
    ∃ d s1, kobject_copy E s k = some (d, s1) ∧ d ≠ k ∧
      ∀ (l : List (Bool × IoOp)) (s2 : State W), run_ios E k d s1 l = some s2 →
        ∀ (op : IoOp),
          (∀ r s3, run_io E s2 d op = some (r, s3) →
            s3.objs k = s2.objs k ∧ tag_string s3 k = tag_string s2 k) ∧
          (∀ r s3, run_io E s2 k op = some (r, s3) →
            s3.objs d = s2.objs d ∧ tag_string s3 d = tag_string s2 d) ∧
          (src.type ≠ KOBJECT_DEVICE →
            (run_io E s2 d op).isSome = true ∧ (run_io E s2 k op).isSome = true) := by
  obtain ⟨s1, hcopy, -⟩ := copy_spec E s k src h hf ht
  obtain ⟨hsep, hk1, hd1⟩ := copy_separate E s s1 k src h hf ht hcopy
  refine ⟨s.brk, s1, hcopy, (lt_of_fresh s k src hf h).ne', ?_⟩
  intro l s2 hrun op
  obtain ⟨hs2, hk2, hd2⟩ := separate_run E k s.brk l s1 s2 hsep hrun
  refine ⟨?_, ?_, ?_⟩
  · intro r s3 hr
    obtain ⟨h1, h2, -⟩ := separate_step E s2 s3 k s.brk op r hs2 hr
    exact ⟨h1, h2⟩
  · intro r s3 hr
    obtain ⟨h1, h2, -⟩ := separate_step E s2 s3 s.brk k op r (separate_symm _ _ _ hs2) hr
    exact ⟨h1, h2⟩
  · intro hdev
    obtain ⟨-, -, -, ok, od, ho1, ho2, -⟩ := id hs2
    have tk : ok.type = src.type := by
      have := hk2.trans hk1
      rw [ho1] at this
      simpa using this
    have td : od.type = src.type := by
      have := hd2.trans hd1
      rw [ho2] at this
      simpa using this
    exact ⟨run_io_defined E s2 k s.brk od op hs2 ho2 (by rw [td]; exact hdev),
      run_io_defined E s2 s.brk k ok op (separate_symm _ _ _ hs2) ho1 (by rw [tk]; exact hdev)⟩

/-- Witness for C6: the copy of a file kobject at offset `5`. -/
theorem copy_is_independent_witness :
    ∃ d s1, kobject_copy demo (demo_state KOBJECT_FILE 1 5) 1 = some (d, s1) ∧ d ≠ 1 ∧
      ∀ (l : List (Bool × IoOp)) (s2 : State (Int → Int)), run_ios demo 1 d s1 l = some s2 →
        ∀ (op : IoOp),
          (∀ r s3, run_io demo s2 d op = some (r, s3) →
            s3.objs 1 = s2.objs 1 ∧ tag_string s3 1 = tag_string s2 1) ∧
          (∀ r s3, run_io demo s2 1 op = some (r, s3) →
            s3.objs d = s2.objs d ∧ tag_string s3 d = tag_string s2 d) ∧
          (KOBJECT_FILE ≠ KOBJECT_DEVICE →
            (run_io demo s2 d op).isSome = true ∧ (run_io demo s2 1 op).isSome = true) :=
  copy_is_independent demo (demo_state KOBJECT_FILE 1 5) 1 _ rfl (demo_state_fresh _ _ _)
    (demo_state_tag_ok _ _ _)

theorem ok_lt {W : Type} (s : State W) (p : Nat) (k : kobject) (hok : s.ok)
    (h : s.objs p = some k) : p < s.brk := by
  by_contra hge
  have := hok.1 p (by omega)
  rw [this] at h
  simp at h

theorem shape_ok {W : Type} (s s1 : State W) (hok : s.ok) (hs : shape s s1) :
    s1.ok ∧ keeps s s1 := by
  obtain ⟨hfr, hob⟩ := hok
  rcases hs with ⟨ho, hb⟩ | ⟨p, k, k1, hp, ho, hrc, htag, hb⟩ | ⟨n, ho, hrc, htag, hb⟩
  · refine ⟨⟨?_, ?_⟩, ?_⟩
    · intro a ha; rw [ho]; exact hfr a (by omega)
    · intro q kq hq
      rw [ho] at hq
      rw [ho, hb]
      exact hob q kq hq
    · intro q hq; rw [ho]; exact hq
  · have hplt : p < s.brk := ok_lt s p k ⟨hfr, hob⟩ hp
    refine ⟨⟨?_, ?_⟩, ?_⟩
    · intro a ha
      rw [ho, upd_ne _ _ (by omega)]
      exact hfr a (by omega)
    · intro q kq hq
      rw [ho] at hq
      rw [ho, hb]
      by_cases hqp : q = p
      · subst hqp
        rw [upd_same] at hq
        simp only [Option.some.injEq] at hq
        subst hq
        obtain ⟨h1, h2, h3⟩ := hob q k hp
        refine ⟨hrc h1, by rw [htag]; exact h2, ?_⟩
        intro h0
        rw [htag] at h0 ⊢
        have hne : k.tag ≠ q := by
          intro e; rw [e] at h3; rw [h3 (by rw [← e]; exact h0)] at hp; simp at hp
        rw [upd_ne _ _ hne]
        exact h3 h0
      · rw [upd_ne _ _ hqp] at hq
        obtain ⟨h1, h2, h3⟩ := hob q kq hq
        refine ⟨h1, h2, ?_⟩
        intro h0
        have hne : kq.tag ≠ p := by
          intro e; have := h3 h0; rw [e, hp] at this; simp at this
        rw [upd_ne _ _ hne]
        exact h3 h0
    · intro q hq
      rw [ho]
      by_cases hqp : q = p
      · subst hqp; simp
      · rw [upd_ne _ _ hqp]; exact hq
  · refine ⟨⟨?_, ?_⟩, ?_⟩
    · intro a ha
      rw [ho, upd_ne _ _ (by omega)]
      exact hfr a (by omega)
    · intro q kq hq
      rw [ho] at hq
      rw [ho]
      by_cases hqp : q = s.brk
      · subst hqp
        rw [upd_same] at hq
        simp only [Option.some.injEq] at hq
        subst hq
        refine ⟨hrc, ?_, ?_⟩
        · rcases htag with h0 | ⟨-, h2⟩
          · rw [h0]; omega
          · exact h2
        · intro h0
          rcases htag with h00 | ⟨h1, -⟩
          · exact absurd h00 h0
          · rw [upd_ne _ _ (by omega)]
            exact hfr _ (by omega)
      · rw [upd_ne _ _ hqp] at hq
        obtain ⟨h1, h2, h3⟩ := hob q kq hq
        refine ⟨h1, by omega, ?_⟩
        intro h0
        rw [upd_ne _ _ (by omega)]
        exact h3 h0
    · intro q hq
      rw [ho]
      by_cases hqp : q = s.brk
      · subst hqp; simp
      · rw [upd_ne _ _ hqp]; exact hq

theorem shape_same {W : Type} (s s1 : State W) (ho : s1.objs = s.objs) (hb : s1.brk = s.brk) :
    shape s s1 := Or.inl ⟨ho, hb⟩

theorem shape_create {W : Type} (E : Env W) (t : kobject_type_t) (s s0 : State W) (r : Int)
    (ho : s0.objs = s.objs) (hb : s0.brk = s.brk) :
    shape s (kobject_create_of E t s0 r).2 := by
  refine Or.inr (Or.inr ⟨(⟨r, t, 1, 0, 0⟩ : kobject), ?_, le_refl _, Or.inl rfl, ?_⟩)
  · rw [create_of_objs, ho, hb]
  · rw [create_of_brk, hb]; omega

theorem shape_modify {W : Type} (s s1 : State W) (p : Nat) (k k1 : kobject)
    (h : s.objs p = some k) (ho : s1.objs = upd s.objs p (some k1))
    (hrc : 1 ≤ k.refcount → 1 ≤ k1.refcount) (htag : k1.tag = k.tag) (hb : s1.brk = s.brk) :
    shape s s1 := Or.inr (Or.inl ⟨p, k, k1, h, ho, hrc, htag, hb⟩)

theorem addref_shape {W : Type} (s s1 : State W) (p q : Nat)
    (hr : kobject_addref s p = some (q, s1)) : shape s s1 := by
  unfold kobject_addref at hr
  cases h : s.objs p with
  | none => rw [h] at hr; simp at hr
  | some k =>
    rw [h] at hr
    simp only [Option.some.injEq, Prod.mk.injEq] at hr
    obtain ⟨-, rfl⟩ := hr
    exact shape_modify s _ p k _ h rfl (fun h1 => by simp only; omega) rfl rfl

theorem copy_shape {W : Type} (E : Env W) (s s1 : State W) (p d : Nat)
    (hr : kobject_copy E s p = some (d, s1)) : shape s s1 := by
  unfold kobject_copy at hr
  cases h : s.objs p with
  | none => rw [h] at hr; simp at hr
  | some src =>
    rw [h] at hr
    simp only at hr
    by_cases h0 : src.tag = 0
    · simp only [h0, ne_eq, not_true_eq_false, if_false, Option.some.injEq, Prod.mk.injEq] at hr
      obtain ⟨-, rfl⟩ := hr
      refine Or.inr (Or.inr ⟨(⟨src.data, src.type, 1, src.offset, 0⟩ : kobject), ?_,
        le_refl _, Or.inl rfl, ?_⟩)
      · simp [kobject_create, State.modObj]
      · simp [kobject_create, State.modObj]
    · simp only [h0, ne_eq, not_false_eq_true, if_true] at hr
      unfold strdup strcpy at hr
      simp only [kobject_create, State.modObj, setObj_objs, setObj_mem, kmalloc_objs, kmalloc_mem,
        kmalloc_val, upd_same] at hr
      cases hm : upd s.mem s.brk (some ⟨E.sizeof_kobject, []⟩) src.tag with
      | none => rw [hm] at hr; simp at hr
      | some b =>
        rw [hm] at hr
        simp only [kmalloc_brk, setObj_brk, upd_same, Option.some.injEq, Prod.mk.injEq] at hr
        obtain ⟨-, rfl⟩ := hr
        refine Or.inr (Or.inr ⟨(⟨src.data, src.type, 1, src.offset, s.brk + 1⟩ : kobject), ?_,
          le_refl _, Or.inr ⟨?_, ?_⟩, ?_⟩)
        · simp
        · simp
        · simp
        · simp only [call_brk, setObj_brk, kmalloc_brk]; omega

theorem read_shape {W : Type} (E : Env W) (s s1 : State W) (p : Nat) (buffer : Nat)
    (size : Int) (flags : Nat) (r : Int)
    (hr : kobject_read E s p buffer size flags = some (r, s1)) : shape s s1 := by
  cases h : s.objs p with
  | none => unfold kobject_read at hr; rw [h] at hr; simp at hr
  | some k =>
    obtain ⟨⟨o, ho⟩, -, hb⟩ := read_effect E s s1 p k buffer size flags r h hr
    exact shape_modify s s1 p k _ h ho (fun h1 => h1) rfl hb

theorem write_shape {W : Type} (E : Env W) (s s1 : State W) (p : Nat) (buffer : Nat)
    (size : Int) (flags : Nat) (r : Int)
    (hr : kobject_write E s p buffer size flags = some (r, s1)) : shape s s1 := by
  cases h : s.objs p with
  | none => unfold kobject_write at hr; rw [h] at hr; simp at hr
  | some k =>
    obtain ⟨⟨o, ho⟩, -, hb⟩ := write_effect E s s1 p k buffer size flags r h hr
    exact shape_modify s s1 p k _ h ho (fun h1 => h1) rfl hb

theorem move_shape {W : Type} (E : Env W) (s s1 : State W) (p : Nat) (x y r : Int)
    (hr : kobject_move E s p x y = some (r, s1)) : shape s s1 := by
  unfold kobject_move at hr
  cases h : s.objs p with
  | none => rw [h] at hr; simp at hr
  | some k =>
    rw [h] at hr
    simp only [Option.some.injEq, Prod.mk.injEq] at hr
    obtain ⟨-, rfl⟩ := hr
    exact shape_same _ _ rfl rfl

theorem list_shape {W : Type} (E : Env W) (s s1 : State W) (p : Nat) (buffer : Nat)
    (size r : Int) (hr : kobject_list E s p buffer size = some (r, s1)) : shape s s1 := by
  unfold kobject_list at hr
  cases h : s.objs p with
  | none => rw [h] at hr; simp at hr
  | some k =>
    rw [h] at hr
    simp only at hr
    split_ifs at hr
    all_goals simp only [Option.some.injEq, Prod.mk.injEq] at hr
    all_goals obtain ⟨-, rfl⟩ := hr
    all_goals exact shape_same _ _ rfl rfl

theorem remove_shape {W : Type} (E : Env W) (s s1 : State W) (p : Nat) (name : List Nat)
    (r : Int) (hr : kobject_remove E s p name = some (r, s1)) : shape s s1 := by
  unfold kobject_remove at hr
  cases h : s.objs p with
  | none => rw [h] at hr; simp at hr
  | some k =>
    rw [h] at hr
    simp only at hr
    split_ifs at hr
    all_goals simp only [Option.some.injEq, Prod.mk.injEq] at hr
    all_goals obtain ⟨-, rfl⟩ := hr
    all_goals exact shape_same _ _ rfl rfl

theorem lookup_shape {W : Type} (E : Env W) (s s1 : State W) (p : Nat) (name : List Nat)
    (newobj q : Nat) (r : Int)
    (hr : kobject_lookup E s p name newobj = some (r, q, s1)) : shape s s1 := by
  unfold kobject_lookup at hr
  cases h : s.objs p with
  | none => rw [h] at hr; simp at hr
  | some k =>
    rw [h] at hr
    simp only [kobject_create_dir, kobject_create_file] at hr
    split_ifs at hr
    all_goals try rw [create_of_eq] at hr
    all_goals simp only [Option.some.injEq, Prod.mk.injEq] at hr
    all_goals obtain ⟨-, -, rfl⟩ := hr
    all_goals first
      | exact shape_same _ _ rfl rfl
      | exact shape_create E _ s _ _ rfl rfl

theorem size_shape {W : Type} (E : Env W) (s s1 : State W) (p : Nat) (dims dims1 : Nat → Int)
    (n r : Int) (hr : kobject_size E s p dims n = some (r, dims1, s1)) : shape s s1 := by
  unfold kobject_size at hr
  cases h : s.objs p with
  | none => rw [h] at hr; simp at hr
  | some k =>
    obtain ⟨data, type, rc, off, tag⟩ := k
    rw [h] at hr
    cases type
    all_goals simp only at hr
    all_goals split_ifs at hr
    all_goals simp only [Option.some.injEq, Prod.mk.injEq] at hr
    all_goals obtain ⟨-, -, rfl⟩ := hr
    all_goals exact shape_same _ _ rfl rfl

theorem get_tag_shape {W : Type} (s s1 : State W) (p buffer : Nat) (buffer_size r : Int)
    (hr : kobject_get_tag s p buffer buffer_size = some (r, s1)) : shape s s1 := by
  unfold kobject_get_tag strcpy at hr
  cases h : s.objs p with
  | none => rw [h] at hr; simp at hr
  | some k =>
    rw [h] at hr
    simp only at hr
    split_ifs at hr
    · cases hm : s.mem k.tag with
      | none => rw [hm] at hr; simp at hr
      | some t =>
        rw [hm] at hr
        simp only at hr
        cases hbuf : s.mem buffer with
        | none => rw [hbuf] at hr; simp at hr
        | some b =>
          rw [hbuf] at hr
          simp only [Option.some.injEq, Prod.mk.injEq] at hr
          obtain ⟨-, rfl⟩ := hr
          exact shape_same _ _ rfl rfl
    · simp only [Option.some.injEq, Prod.mk.injEq] at hr
      obtain ⟨-, rfl⟩ := hr
      exact shape_same _ _ rfl rfl

theorem create_from_shape {W : Type} (E : Env W) (s s1 : State W) (op : Op) (hs : step E s op = some s1)
    (hop : (∃ k x y w h, op = Op.create_window_from_window k x y w h) ∨
      (∃ k, op = Op.create_console_from_window k) ∨
      (∃ k name, op = Op.create_file_from_dir k name) ∨
      (∃ k name, op = Op.create_dir_from_dir k name)) : shape s s1 := by
  rcases hop with ⟨k, x, y, w, h, rfl⟩ | ⟨k, rfl⟩ | ⟨k, name, rfl⟩ | ⟨k, name, rfl⟩
  all_goals simp only [step, kobject_create_window_from_window,
    kobject_create_console_from_window, kobject_create_file_from_dir,
    kobject_create_dir_from_dir, kobject_create_window, kobject_create_console,
    kobject_create_file, kobject_create_dir] at hs
  all_goals cases ho : s.objs k with
    | none => rw [ho] at hs; simp at hs
    | some o =>
      rw [ho] at hs
      simp only at hs
      split_ifs at hs
      all_goals simp only [Option.map_some', Option.some.injEq] at hs
      all_goals subst hs
      all_goals first
        | exact shape_same _ _ rfl rfl
        | exact shape_create E _ s _ _ rfl rfl

theorem set_tag_ok {W : Type} (s s1 : State W) (p : Nat) (t : List Nat) (r : Int)
    (hok : s.ok) (hr : kobject_set_tag s p t = some (r, s1)) : s1.ok ∧ keeps s s1 := by
  cases h : s.objs p with
  | none => unfold kobject_set_tag at hr; rw [h] at hr; simp at hr
  | some k =>
    obtain ⟨hfr, hob⟩ := hok
    obtain ⟨hk1, hk2, hk3⟩ := hob p k h
    have hplt : p < s.brk := ok_lt s p k ⟨hfr, hob⟩ h
    have hself : k.tag ≠ 0 → k.tag ≠ p := by
      intro h0 e; have := hk3 h0; rw [e, h] at this; simp at this
    obtain ⟨s2, hst, hp, hfrm, hnone, -, -, hb, -⟩ := set_tag_spec s p k t h hself
    have e : s1 = s2 := by
      have := hr.symm.trans hst
      simp only [Option.some.injEq, Prod.mk.injEq] at this
      exact this.2
    subst e
    have hsame : ∀ q kq, q ≠ p → s1.objs q = some kq → s.objs q = some kq := by
      intro q kq hq hq1
      by_cases hqt : k.tag ≠ 0 ∧ q = k.tag
      · have := hnone q hq (by rw [hqt.2]; exact hk3 hqt.1)
        rw [this] at hq1; simp at hq1
      · rw [← hfrm q hq (fun h0 e => hqt ⟨h0, e⟩)]; exact hq1
    refine ⟨⟨?_, ?_⟩, ?_⟩
    · intro a ha
      rw [hb] at ha
      exact hnone a (by omega) (hfr a (by omega))
    · intro q kq hq
      rw [hb]
      by_cases hqp : q = p
      · subst hqp
        rw [hp] at hq
        simp only [Option.some.injEq] at hq
        subst hq
        refine ⟨hk1, by simp, ?_⟩
        intro _
        exact hnone s.brk (by omega) (hfr _ le_rfl)
      · have hq0 := hsame q kq hqp hq
        obtain ⟨h1, h2, h3⟩ := hob q kq hq0
        refine ⟨h1, by omega, ?_⟩
        intro h0
        have hne : kq.tag ≠ p := by
          intro e; have := h3 h0; rw [e, h] at this; simp at this
        exact hnone _ hne (h3 h0)
    · intro q hq
      by_cases hqp : q = p
      · subst hqp; rw [hp]; rfl
      · by_cases hqt : k.tag ≠ 0 ∧ q = k.tag
        · rw [hqt.2, hk3 hqt.1] at hq; simp at hq
        · rw [hfrm q hqp (fun h0 e => hqt ⟨h0, e⟩)]; exact hq

theorem close_ok {W : Type} (E : Env W) (s s1 : State W) (p : Nat) (k : kobject) (r : Int)
    (hok : s.ok) (h : s.objs p = some k) (hr : kobject_close E s p = some (r, s1)) :
    s1.ok ∧ (k.refcount - 1 ≠ 0 → keeps s s1) ∧
      (k.refcount - 1 = 0 → s1.objs p = none ∧
        ∀ q, q ≠ p → (s.objs q).isSome = true → (s1.objs q).isSome = true) := by
  by_cases h1 : k.refcount - 1 = 0
  · obtain ⟨s2, hc, hnone, -, hfrm, -, hb, hpres, hfrm0⟩ := close_last E s p k h (by omega)
    have e : s1 = s2 := by
      have := hr.symm.trans hc
      simp only [Option.some.injEq, Prod.mk.injEq] at this
      exact this.2
    subst e
    obtain ⟨hfr, hob⟩ := hok
    obtain ⟨hk1, hk2, hk3⟩ := hob p k h
    have hkeep : ∀ q, q ≠ p → (s.objs q).isSome = true → s1.objs q = s.objs q := by
      intro q hq hsome
      by_cases h0 : k.tag = 0
      · exact hfrm0 h0 q hq
      · refine hfrm q hq ?_
        intro e
        rw [e, hk3 h0] at hsome
        simp at hsome
    refine ⟨⟨?_, ?_⟩, fun hne => absurd h1 hne, fun _ => ⟨hnone, ?_⟩⟩
    · intro a ha
      rw [hb] at ha
      by_cases hap : a = p
      · rw [hap]; exact hnone
      · exact hpres a hap (hfr a ha)
    · intro q kq hq
      rw [hb]
      have hqp : q ≠ p := by
        intro e; rw [e, hnone] at hq; simp at hq
      have hq0 : s.objs q = some kq := by
        cases hsq : s.objs q with
        | none => rw [hpres q hqp hsq] at hq; simp at hq
        | some kq0 =>
          rw [hkeep q hqp (by rw [hsq]; rfl), hsq] at hq
          exact hq
      obtain ⟨g1, g2, g3⟩ := hob q kq hq0
      refine ⟨g1, g2, ?_⟩
      intro h0
      by_cases htp : kq.tag = p
      · rw [htp]; exact hnone
      · exact hpres _ htp (g3 h0)
    · intro q hq hsome
      rw [hkeep q hq hsome]; exact hsome
  · obtain ⟨s2, hc, ho, -, -, hfrm, -, hb, -⟩ := close_alive E s p k h h1
    have e : s1 = s2 := by
      have := hr.symm.trans hc
      simp only [Option.some.injEq, Prod.mk.injEq] at this
      exact this.2
    subst e
    have hobjs : s1.objs = upd s.objs p (some { k with refcount := k.refcount - 1 }) := by
      funext q
      by_cases hq : q = p
      · subst hq; rw [ho, upd_same]
      · rw [hfrm q hq, upd_ne _ _ hq]
    have hsh : shape s s1 := shape_modify s s1 p k _ h hobjs (fun h1 => by simp only; omega) rfl hb
    obtain ⟨g1, g2⟩ := shape_ok s s1 hok hsh
    exact ⟨g1, fun _ => g2, fun e => absurd e h1⟩

/-- One call of the kobject interface keeps the invariant, and keeps every live
kobject unless it is a `kobject_close` that takes a reference count to zero. -/
theorem step_ok {W : Type} (E : Env W) (s s1 : State W) (op : Op) (hok : s.ok)
    (hs : step E s op = some s1) :
    s1.ok ∧ (keeps s s1 ∨ ∃ p k, op = Op.close p ∧ s.objs p = some k ∧ k.refcount - 1 = 0 ∧
      s1.objs p = none ∧ ∀ q, q ≠ p → (s.objs q).isSome = true → (s1.objs q).isSome = true) := by
  have hshape : shape s s1 → s1.ok ∧ (keeps s s1 ∨ ∃ p k, op = Op.close p ∧
      s.objs p = some k ∧ k.refcount - 1 = 0 ∧ s1.objs p = none ∧
      ∀ q, q ≠ p → (s.objs q).isSome = true → (s1.objs q).isSome = true) := by
    intro hsh
    obtain ⟨g1, g2⟩ := shape_ok s s1 hok hsh
    exact ⟨g1, Or.inl g2⟩
  cases op with
  | create_file f =>
    simp only [step, kobject_create_file, Option.some.injEq] at hs
    subst hs; exact hshape (shape_create E _ s s f rfl rfl)
  | create_dir f =>
    simp only [step, kobject_create_dir, Option.some.injEq] at hs
    subst hs; exact hshape (shape_create E _ s s f rfl rfl)
  | create_device f =>
    simp only [step, kobject_create_device, Option.some.injEq] at hs
    subst hs; exact hshape (shape_create E _ s s f rfl rfl)
  | create_window f =>
    simp only [step, kobject_create_window, Option.some.injEq] at hs
    subst hs; exact hshape (shape_create E _ s s f rfl rfl)
  | create_console f =>
    simp only [step, kobject_create_console, Option.some.injEq] at hs
    subst hs; exact hshape (shape_create E _ s s f rfl rfl)
  | create_pipe f =>
    simp only [step, kobject_create_pipe, Option.some.injEq] at hs
    subst hs; exact hshape (shape_create E _ s s f rfl rfl)
  | create_window_from_window k x y w h =>
    exact hshape (create_from_shape E s s1 _ hs (Or.inl ⟨k, x, y, w, h, rfl⟩))
  | create_console_from_window k =>
    exact hshape (create_from_shape E s s1 _ hs (Or.inr (Or.inl ⟨k, rfl⟩)))
  | create_file_from_dir k name =>
    exact hshape (create_from_shape E s s1 _ hs (Or.inr (Or.inr (Or.inl ⟨k, name, rfl⟩))))
  | create_dir_from_dir k name =>
    exact hshape (create_from_shape E s s1 _ hs (Or.inr (Or.inr (Or.inr ⟨k, name, rfl⟩))))
  | addref k =>
    simp only [step, Option.map_eq_some'] at hs
    obtain ⟨⟨q, s2⟩, hr, rfl⟩ := hs
    exact hshape (addref_shape s _ k q hr)
  | copy k =>
    simp only [step, Option.map_eq_some'] at hs
    obtain ⟨⟨q, s2⟩, hr, rfl⟩ := hs
    exact hshape (copy_shape E s _ k q hr)
  | move k x y =>
    simp only [step, Option.map_eq_some'] at hs
    obtain ⟨⟨r, s2⟩, hr, rfl⟩ := hs
    exact hshape (move_shape E s _ k x y r hr)
  | read k buffer size flags =>
    simp only [step, Option.map_eq_some'] at hs
    obtain ⟨⟨r, s2⟩, hr, rfl⟩ := hs
    exact hshape (read_shape E s _ k buffer size flags r hr)
  | write k buffer size flags =>
    simp only [step, Option.map_eq_some'] at hs
    obtain ⟨⟨r, s2⟩, hr, rfl⟩ := hs
    exact hshape (write_shape E s _ k buffer size flags r hr)
  | list k buffer size =>
    simp only [step, Option.map_eq_some'] at hs
    obtain ⟨⟨r, s2⟩, hr, rfl⟩ := hs
    exact hshape (list_shape E s _ k buffer size r hr)
  | lookup k name newobj =>
    simp only [step, Option.map_eq_some'] at hs
    obtain ⟨⟨r, q, s2⟩, hr, rfl⟩ := hs
    exact hshape (lookup_shape E s _ k name newobj q r hr)
  | remove k name =>
    simp only [step, Option.map_eq_some'] at hs
    obtain ⟨⟨r, s2⟩, hr, rfl⟩ := hs
    exact hshape (remove_shape E s _ k name r hr)
  | size k dims n =>
    simp only [step, Option.map_eq_some'] at hs
    obtain ⟨⟨r, dims1, s2⟩, hr, rfl⟩ := hs
    exact hshape (size_shape E s _ k dims dims1 n r hr)
  | get_tag k buffer buffer_size =>
    simp only [step, Option.map_eq_some'] at hs
    obtain ⟨⟨r, s2⟩, hr, rfl⟩ := hs
    exact hshape (get_tag_shape s _ k buffer buffer_size r hr)
  | set_tag k t =>
    simp only [step, Option.map_eq_some'] at hs
    obtain ⟨⟨r, s2⟩, hr, rfl⟩ := hs
    obtain ⟨g1, g2⟩ := set_tag_ok s _ k t r hok hr
    exact ⟨g1, Or.inl g2⟩
  | close k =>
    simp only [step, Option.map_eq_some'] at hs
    obtain ⟨⟨r, s2⟩, hr, rfl⟩ := hs
    cases ho : s.objs k with
    | none => unfold kobject_close at hr; rw [ho] at hr; simp at hr
    | some o =>
      obtain ⟨g1, g2, g3⟩ := close_ok E s _ k o r hok ho hr
      refine ⟨g1, ?_⟩
      by_cases h1 : o.refcount - 1 = 0
      · exact Or.inr ⟨k, o, rfl, ho, h1, (g3 h1).1, (g3 h1).2⟩
      · exact Or.inl (g2 h1)

theorem init_ok {W : Type} (w : W) : (State.init w).ok :=
  ⟨fun _ _ => rfl, fun p k h => by simp [State.init] at h⟩

theorem reachable_ok {W : Type} (E : Env W) (s : State W) (h : Reachable E s) : s.ok := by
  induction h with
  | init w => exact init_ok w
  | step s s1 op _ hs ih => exact (step_ok E s s1 op ih hs).1

/-- C8: in every state reached from the empty one by calls of the kobject
interface (the constructors, `kobject_addref`, `kobject_copy`, the data,
directory, size and tag operations, and `kobject_close`), every live kobject
has a reference count of at least `1`; and one more call frees a live kobject
exactly when it is `kobject_close` on that kobject and the decrement takes its
reference count to `0`. -/
theorem reachable_refcount_pos {W : Type} (E : Env W) (s : State W) (p : Nat) (k : kobject)
    (hreach : Reachable E s) (h : s.objs p = some k) :
    1 ≤ k.refcount ∧ ∀ op s1, step E s op = some s1 →
      (s1.objs p = none ↔ (op = Op.close p ∧ k.refcount - 1 = 0)) := by
  have hok := reachable_ok E s hreach
  refine ⟨(hok.2 p k h).1, ?_⟩
  intro op s1 hs
  obtain ⟨-, hkeep | ⟨q, o, hop, ho, hrc, hnone, hothers⟩⟩ := step_ok E s s1 op hok hs
  · constructor
    · intro hn
      have := hkeep p (by rw [h]; rfl)
      rw [hn] at this
      simp at this
    · rintro ⟨rfl, hrc⟩
      simp only [step, Option.map_eq_some'] at hs
      obtain ⟨⟨r, s2⟩, hr, rfl⟩ := hs
      obtain ⟨-, -, g3⟩ := close_ok E s _ p k r hok h hr
      exact (g3 hrc).1
  · constructor
    · intro hn
      by_cases hpq : p = q
      · subst hpq
        rw [h] at ho
        simp only [Option.some.injEq] at ho
        subst ho
        exact ⟨hop, hrc⟩
      · have := hothers p hpq (by rw [h]; rfl)
        rw [hn] at this
        simp at this
    · rintro ⟨hop2, -⟩
      rw [hop2] at hop
      simp only [Op.close.injEq] at hop
      subst hop
      exact hnone

/-- Witness for C8: the state after `kobject_create_pipe` from the empty
state. -/
theorem reachable_refcount_pos_witness :
    (1 : Int) ≤ 1 ∧ ∀ op s1,
      step demo (kobject_create_pipe demo (State.init fun _ => 0) 7).2 op = some s1 →
      (s1.objs 1 = none ↔ (op = Op.close 1 ∧ (1 : Int) - 1 = 0)) :=
  reachable_refcount_pos demo (kobject_create_pipe demo (State.init fun _ => 0) 7).2 1
    ⟨7, KOBJECT_PIPE, 1, 0, 0⟩
    (Reachable.step _ _ (Op.create_pipe 7) (Reachable.init _) rfl) rfl

/-- What `kobject_get_tag` does on a kobject with a tag stored in a live block,
into a live buffer. -/
theorem get_tag_spec {W : Type} (s : State W) (p buffer : Nat) (buffer_size : Int)
    (k : kobject) (t b : Block) (h : s.objs p = some k) (h0 : k.tag ≠ 0)
    (ht : s.mem k.tag = some t) (hb : s.mem buffer = some b) :
    kobject_get_tag s p buffer buffer_size
      = some (1, { s with mem := upd s.mem buffer (some { b with bytes := t.bytes }) }) := by
  simp [kobject_get_tag, strcpy, h, h0, ht, hb]

/-- The handle `p` and the caller's buffer stay usable across
`kobject_set_tag`: what a sequence of calls leaves behind. -/
theorem set_tags_spec {W : Type} (p buffer : Nat) :
    ∀ (l : List (List Nat)) (s : State W) (k : kobject), s.objs p = some k →
      (k.tag ≠ 0 → k.tag ≠ p ∧ k.tag ≠ buffer) → p < s.brk → buffer < s.brk →
      ∃ s1 k1, set_tags s p l = some s1 ∧ s1.objs p = some k1 ∧
        (k1.tag ≠ 0 → k1.tag ≠ p ∧ k1.tag ≠ buffer) ∧ p < s1.brk ∧ buffer < s1.brk ∧
        s1.mem buffer = s.mem buffer ∧ s1.trace = s.trace ∧ s1.world = s.world ∧
        k1.offset = k.offset ∧ k1.refcount = k.refcount ∧ k1.type = k.type ∧
        k1.data = k.data ∧
        (∀ t, l.getLast? = some t → k1.tag ≠ 0 ∧ ∃ b, s1.mem k1.tag = some b ∧ b.bytes = t ∧
          b.size = strlen t * 1) ∧
        (l = [] → s1 = s) := by
  intro l
  induction l with
  | nil =>
    intro s k h hk hp hb
    exact ⟨s, k, rfl, h, hk, hp, hb, rfl, rfl, rfl, rfl, rfl, rfl, rfl,
      fun t ht => by simp at ht, fun _ => rfl⟩
  | cons t l ih =>
    intro s k h hk hp hb
    obtain ⟨s1, hst, ho, -, -, hmem, hnew, hbrk, hw, htr⟩ :=
      set_tag_spec s p k t h (fun h0 => (hk h0).1)
    have hk1 : ({ k with tag := s.brk } : kobject).tag ≠ 0 →
        ({ k with tag := s.brk } : kobject).tag ≠ p ∧
        ({ k with tag := s.brk } : kobject).tag ≠ buffer := by
      intro _; simp only; constructor <;> omega
    obtain ⟨s2, k2, hst2, ho2, hk2, hp2, hb2, hm2, htr2, hw2, e1, e2, e3, e4, hlast, -⟩ :=
      ih s1 _ ho hk1 (by omega) (by omega)
    refine ⟨s2, k2, ?_, ho2, hk2, hp2, hb2, ?_, by rw [htr2, htr], by rw [hw2, hw],
      e1, e2, e3, e4, ?_, ?_⟩
    · simp [set_tags, hst, hst2]
    · rw [hm2]; exact hmem buffer (fun h0 => (hk h0).2.symm) (by omega)
    · intro u hu
      cases l with
      | nil =>
        simp only [List.getLast?_singleton, Option.some.injEq] at hu
        subst hu
        simp only [set_tags, Option.some.injEq] at hst2
        subst hst2
        rw [ho] at ho2
        simp only [Option.some.injEq] at ho2
        subst ho2
        exact ⟨by simp only; omega, _, hnew, rfl, rfl⟩
      | cons v l2 =>
        exact hlast u (by simpa using hu)
    · intro e; simp at e

/-- C11: after one or more calls of `kobject_set_tag` on a live kobject,
`kobject_get_tag` returns `1` (a tag is present) and the caller's buffer holds
the string of the last call; on a kobject just made by a constructor it
returns `0` and leaves the state, the buffer included, as it was. -/
theorem set_tag_then_get_tag {W : Type} (E : Env W) (s : State W) (p buffer : Nat)
    (buffer_size : Int) (k : kobject) (b : Block) (l : List (List Nat)) (t : List Nat)
    (h : s.objs p = some k) (hk : k.tag ≠ 0 → k.tag ≠ p ∧ k.tag ≠ buffer)
    (hp : p < s.brk) (hbuf : buffer < s.brk) (hb : s.mem buffer = some b) :
    (∃ s1 s2, set_tags s p (l ++ [t]) = some s1 ∧
      kobject_get_tag s1 p buffer buffer_size = some (1, s2) ∧
      (s2.mem buffer).map Block.bytes = some t) ∧
    (∀ ty r, kobject_get_tag (kobject_create_of E ty s r).2 (kobject_create_of E ty s r).1
      buffer buffer_size = some (0, (kobject_create_of E ty s r).2)) := by
  constructor
  · obtain ⟨s1, k1, hst, ho, -, -, -, hm, -, -, -, -, -, -, hlast, -⟩ :=
      set_tags_spec p buffer (l ++ [t]) s k h hk hp hbuf
    obtain ⟨h0, tb, htb, hbytes, -⟩ := hlast t (by simp)
    refine ⟨s1, _, hst, get_tag_spec s1 p buffer buffer_size k1 tb b ho h0 htb (by rw [hm, hb]), ?_⟩
    simp [hbytes]
  · intro ty r
    simp [kobject_get_tag]

/-- Witness for C11: two calls of `kobject_set_tag` on a file kobject, then
`kobject_get_tag` into a buffer at address `2`. -/
theorem set_tag_then_get_tag_witness :
    ∃ s1 s2, set_tags (demo_buffer_state KOBJECT_FILE 8) 1 [[104], [104, 105]] = some s1 ∧
      kobject_get_tag s1 1 2 8 = some (1, s2) ∧
      (s2.mem 2).map Block.bytes = some [104, 105] :=
  (set_tag_then_get_tag demo (demo_buffer_state KOBJECT_FILE 8) 1 2 8 _ ⟨8, []⟩ [[104]]
    [104, 105] rfl (fun h0 => absurd rfl h0) (by decide) (by decide) rfl).1

/-- C12: `kobject_read` and `kobject_write` on a device kobject whose block
size `bs` is positive ask the device for its block size and then make one
transfer call, for `size / bs` blocks (C division, the quotient rounded
toward zero, which is the floor when `size` is not negative) from block `0`,
whatever the offset of the kobject; the read call is `device_read_nonblock`
when the non-blocking flag is set and `device_read` otherwise. -/
theorem device_io_whole_blocks {W : Type} (E : Env W) (s : State W) (p : Nat) (k : kobject)
    (buffer : Nat) (size : Int) (flags : Nat) (h : s.objs p = some k)
    (hd : k.type = KOBJECT_DEVICE)
    (hbs : 0 < (E.exec s.world (Call.device_block_size k.data)).1) :
    (∃ r s1, kobject_read E s p buffer size flags = some (r, s1) ∧
      s1.trace = s.trace ++ [Call.device_block_size k.data,
        if flags &&& E.KERNEL_IO_NONBLOCK ≠ 0 then
          Call.device_read_nonblock k.data buffer
            (Int.tdiv size (E.exec s.world (Call.device_block_size k.data)).1) 0
        else
          Call.device_read k.data buffer
            (Int.tdiv size (E.exec s.world (Call.device_block_size k.data)).1) 0]) ∧
    (∃ r s1, kobject_write E s p buffer size flags = some (r, s1) ∧
      s1.trace = s.trace ++ [Call.device_block_size k.data,
        Call.device_write k.data buffer
          (Int.tdiv size (E.exec s.world (Call.device_block_size k.data)).1) 0]) ∧
    (0 ≤ size → Int.tdiv size (E.exec s.world (Call.device_block_size k.data)).1
      = size / (E.exec s.world (Call.device_block_size k.data)).1) := by
  obtain ⟨data, type, rc, off, tag⟩ := k
  simp only at hd hbs
  subst hd
  have hne : (E.exec s.world (Call.device_block_size data)).1 ≠ 0 := by omega
  refine ⟨?_, ?_, fun hs => Int.tdiv_eq_ediv hs (le_of_lt hbs)⟩
  · unfold kobject_read
    simp only [h, read_finish, call_val, hne, if_false]
    split_ifs <;> refine ⟨_, _, rfl, ?_⟩ <;> simp [State.modObj, h]
  · unfold kobject_write
    simp only [h, call_val, hne, if_false]
    exact ⟨_, _, rfl, by simp⟩

/-- Witness for C12: a non-blocking read and a write of 2000 bytes through a
device kobject at offset `10`; the device has blocks of 512 bytes. -/
theorem device_io_whole_blocks_witness :
    (∃ r s1, kobject_read demo (demo_state KOBJECT_DEVICE 1 10) 1 9 2000 1 = some (r, s1) ∧
      s1.trace = [Call.device_block_size 7, Call.device_read_nonblock 7 9 3 0]) ∧
    (∃ r s1, kobject_write demo (demo_state KOBJECT_DEVICE 1 10) 1 9 2000 1 = some (r, s1) ∧
      s1.trace = [Call.device_block_size 7, Call.device_write 7 9 3 0]) :=
  ⟨(device_io_whole_blocks demo (demo_state KOBJECT_DEVICE 1 10) 1 _ 9 2000 1 rfl rfl
      (by decide)).1,
   (device_io_whole_blocks demo (demo_state KOBJECT_DEVICE 1 10) 1 _ 9 2000 1 rfl rfl
      (by decide)).2.1⟩

/-- C13: `kobject_write` on a directory kobject returns `0` and leaves the
state as it was: no back-end call is made and no kobject changes. -/
theorem kobject_write_directory {W : Type} (E : Env W) (s : State W) (p : Nat) (k : kobject)
    (buffer : Nat) (size : Int) (flags : Nat) (h : s.objs p = some k)
    (hd : k.type = KOBJECT_DIR) :
    kobject_write E s p buffer size flags = some (0, s) := by
  simp [kobject_write, h, hd]

/-- Witness for C13: a write of 16 bytes through a directory kobject. -/
theorem kobject_write_directory_witness :
    kobject_write demo (demo_state KOBJECT_DIR 1 0) 1 9 16 0
      = some (0, demo_state KOBJECT_DIR 1 0) :=
  kobject_write_directory demo (demo_state KOBJECT_DIR 1 0) 1 _ 9 16 0 rfl rfl

/-- C14, the code at the failing input: `kobject_move` on a file kobject calls
`window_move` on the file's resource and returns what the back end returns. -/
theorem kobject_move_on_file :
    (kobject_move demo (demo_state KOBJECT_FILE 1 0) 1 3 4).map (fun r => (r.1, r.2.trace))
      = some (4, [Call.window_move 7 3 4]) := by
  rfl

/-- C15 (as amended): on a kobject that is not a directory, `kobject_list`
returns `KERROR_NOT_A_DIRECTORY`, and `kobject_lookup` and `kobject_remove`
return `KERROR_NOT_IMPLEMENTED`. -/
theorem directory_operation_errors {W : Type} (E : Env W) (s : State W) (p : Nat) (k : kobject)
    (buffer : Nat) (size : Int) (name : List Nat) (newobj : Nat) (h : s.objs p = some k)
    (hk : k.type ≠ KOBJECT_DIR) :
    (kobject_list E s p buffer size).map (fun r => r.1) = some E.KERROR_NOT_A_DIRECTORY ∧
    (kobject_lookup E s p name newobj).map (fun r => r.1) = some E.KERROR_NOT_IMPLEMENTED ∧
    (kobject_remove E s p name).map (fun r => r.1) = some E.KERROR_NOT_IMPLEMENTED := by
  simp [kobject_list, kobject_lookup, kobject_remove, h, hk]

/-- Witness for C15 (as amended): the three operations on a pipe kobject. -/
theorem directory_operation_errors_witness :
    (kobject_list demo (demo_state KOBJECT_PIPE 1 0) 1 9 16).map (fun r => r.1) = some (-7) ∧
    (kobject_lookup demo (demo_state KOBJECT_PIPE 1 0) 1 [97] 0).map (fun r => r.1)
      = some (-4) ∧
    (kobject_remove demo (demo_state KOBJECT_PIPE 1 0) 1 [97]).map (fun r => r.1) = some (-4) :=
  directory_operation_errors demo (demo_state KOBJECT_PIPE 1 0) 1 _ 9 16 [97] 0 rfl (by decide)

/-- Counterexample to C15 as stated: with the error codes `-4` for
`KERROR_NOT_IMPLEMENTED` and `-7` for `KERROR_NOT_A_DIRECTORY`, `kobject_lookup`
and `kobject_remove` on a file kobject return `KERROR_NOT_IMPLEMENTED`, which
is not `KERROR_NOT_A_DIRECTORY`. -/
theorem directory_operation_errors_counterexample :
    (kobject_lookup demo (demo_state KOBJECT_FILE 1 0) 1 [97] 0).map (fun r => r.1)
      = some demo.KERROR_NOT_IMPLEMENTED ∧
    (kobject_remove demo (demo_state KOBJECT_FILE 1 0) 1 [97]).map (fun r => r.1)
      = some demo.KERROR_NOT_IMPLEMENTED ∧
    (kobject_lookup demo (demo_state KOBJECT_FILE 1 0) 1 [97] 0).map (fun r => r.1)
      ≠ some demo.KERROR_NOT_A_DIRECTORY ∧
    (kobject_remove demo (demo_state KOBJECT_FILE 1 0) 1 [97]).map (fun r => r.1)
      ≠ some demo.KERROR_NOT_A_DIRECTORY := by
  refine ⟨rfl, rfl, ?_, ?_⟩ <;> decide

/-- C16: `kobject_set_tag` on a live kobject asks `kmalloc` for exactly
`strlen text` bytes, and the copy of `text` that `strcpy` stores in that block,
which becomes the tag, occupies `strlen text + 1` bytes with its terminator:
one byte more than the block has. -/
theorem kobject_set_tag_allocation {W : Type} (s : State W) (p : Nat) (k : kobject)
    (text : List Nat) (h : s.objs p = some k) (hself : k.tag ≠ 0 → k.tag ≠ p) :
    ∃ s1 k1 b, kobject_set_tag s p text = some (1, s1) ∧ s1.objs p = some k1 ∧
      s1.mem k1.tag = some b ∧ b.bytes = text ∧
      b.size = strlen text ∧ b.used = strlen text + 1 ∧ b.size + 1 = b.used := by
  obtain ⟨s1, hst, ho, -, -, -, hnew, -⟩ := set_tag_spec s p k text h hself
  exact ⟨s1, _, _, hst, ho, hnew, rfl, by simp, rfl, by simp [Block.used]⟩

/-- Witness for C16: the tag `hello` on a file kobject. -/
theorem kobject_set_tag_allocation_witness :
    ∃ s1 k1 b, kobject_set_tag (demo_state KOBJECT_FILE 1 0) 1 [104, 101, 108, 108, 111]
        = some (1, s1) ∧ s1.objs 1 = some k1 ∧
      s1.mem k1.tag = some b ∧ b.bytes = [104, 101, 108, 108, 111] ∧
      b.size = 5 ∧ b.used = 5 + 1 ∧ b.size + 1 = b.used :=
  kobject_set_tag_allocation (demo_state KOBJECT_FILE 1 0) 1 _ [104, 101, 108, 108, 111] rfl
    (fun h0 => absurd rfl h0)

/-- C17: `kobject_write` on a live kobject (for a device, one whose block size
is not zero) changes at most the offset of the kobject: the offset grows by
the value returned when the kobject is a file and that value is positive, and
is unchanged otherwise; the kind, the reference count, the tag and the
resource are unchanged, and so is every other kobject. -/
theorem kobject_write_offset {W : Type} (E : Env W) (s : State W) (p : Nat) (k : kobject)
    (buffer : Nat) (size : Int) (flags : Nat) (h : s.objs p = some k)
    (hb : k.type = KOBJECT_DEVICE → (E.exec s.world (Call.device_block_size k.data)).1 ≠ 0) :
    ∃ r s1, kobject_write E s p buffer size flags = some (r, s1) ∧
      s1.objs p = some { k with offset :=
        if k.type = KOBJECT_FILE ∧ 0 < r then k.offset + r else k.offset } ∧
      (∀ q, q ≠ p → s1.objs q = s.objs q) ∧
      (k.type = KOBJECT_FILE →
        r = (E.exec s.world
          (Call.fs_dirent_write k.data buffer (size % 4294967296) k.offset)).1) := by
  obtain ⟨data, type, rc, off, tag⟩ := k
  unfold kobject_write
  simp only [h]
  cases type
  all_goals simp only [State.modObj, call_objs, call_val, h]
  case KOBJECT_DEVICE =>
    have hb1 := hb rfl
    simp only at hb1
    simp only [hb1, if_false]
    refine ⟨_, _, rfl, ?_⟩
    simp [h]
  all_goals try split_ifs
  all_goals refine ⟨_, _, rfl, ?_⟩
  all_goals simp_all
  all_goals first
    | (intro q hq; simp [upd_ne, hq])
    | (split_ifs <;> omega)

/-- Witness for C17: a write through a file kobject at offset `10`, to a back
end that reports `4` bytes. -/
theorem kobject_write_offset_witness :
    ∃ s1, kobject_write demo (demo_state KOBJECT_FILE 1 10) 1 9 100 0 = some (4, s1) ∧
      s1.objs 1 = some { data := 7, type := KOBJECT_FILE, refcount := 1, offset := 14, tag := 0 } := by
  obtain ⟨r, s1, h1, h2, -, h3⟩ := kobject_write_offset demo (demo_state KOBJECT_FILE 1 10) 1 _
    9 100 0 rfl (by intro h; cases h)
  have hr : r = 4 := h3 rfl
  subst hr
  exact ⟨s1, h1, h2⟩

/-- C18, the code at the failing input: on a kobject whose tag is `hello`,
`kobject_get_tag` with a buffer of `2` bytes and `buffer_size = 2` stores the
five bytes of the tag and a terminator, `6` bytes, in the buffer. -/
theorem kobject_get_tag_overflow :
    ∃ s1 s2 b, kobject_set_tag (demo_buffer_state KOBJECT_FILE 2) 1 [104, 101, 108, 108, 111]
        = some (1, s1) ∧
      kobject_get_tag s1 1 2 2 = some (1, s2) ∧ s2.mem 2 = some b ∧
      b.size = 2 ∧ b.bytes = [104, 101, 108, 108, 111] ∧ b.used = 6 :=
  ⟨_, _, _, rfl, rfl, rfl, rfl, rfl, rfl⟩

theorem occupied_eq_testBit (b i : Nat) : occupied b i = b.testBit i := by
  unfold occupied
  rw [Nat.one_shiftLeft]
  cases hb : b.testBit i with
  | false =>
    have : b &&& 2 ^ i = 0 := by
      apply Nat.eq_of_testBit_eq
      intro j
      rw [Nat.testBit_and, Nat.testBit_two_pow, Nat.zero_testBit]
      by_cases hj : i = j
      · subst hj; simp [hb]
      · simp [hj]
    simp [this]
  | true =>
    have : b &&& 2 ^ i ≠ 0 := by
      intro h0
      have := congrArg (fun x => Nat.testBit x i) h0
      simp [Nat.testBit_and, Nat.testBit_two_pow, hb] at this
    simpa using this

set_option maxRecDepth 100000 in
theorem clear_mask_bits : ∀ w, w < 32 → ∀ j, j < 32 →
    Nat.testBit (4294967295 - (1 <<< w)) j = decide (j ≠ w) := by
  decide

theorem occupied_ge (b j : Nat) (hb : b < 4294967296) (hj : 32 ≤ j) : occupied b j = false := by
  rw [occupied_eq_testBit]
  apply Nat.testBit_lt_two_pow
  calc b < 2 ^ 32 := hb
    _ ≤ 2 ^ j := Nat.pow_le_pow_right (by decide) hj

theorem exists_occupied (b : Nat) (hb : b < 4294967296) (h0 : b ≠ 0) :
    ∃ i, i < 32 ∧ occupied b i = true := by
  obtain ⟨i, hi⟩ := Nat.ne_zero_implies_bit_true h0
  refine ⟨i, ?_, by rw [occupied_eq_testBit]; exact hi⟩
  by_contra hge
  have := occupied_ge b i hb (by omega)
  rw [occupied_eq_testBit, hi] at this
  simp at this

theorem occupied_zero (i : Nat) : occupied 0 i = false := by
  rw [occupied_eq_testBit, Nat.zero_testBit]

theorem occupied_set (b i j : Nat) :
    occupied ((b ||| (1 <<< i)) % 4294967296) j
      = (decide (j < 32) && (occupied b j || decide (i = j))) := by
  rw [occupied_eq_testBit, occupied_eq_testBit, Nat.one_shiftLeft,
    show (4294967296 : Nat) = 2 ^ 32 from by norm_num, Nat.testBit_mod_two_pow, Nat.testBit_or,
    Nat.testBit_two_pow]

theorem occupied_clear (b w j : Nat) (hw : w < 32) (hj : j < 32) :
    occupied (b &&& (4294967295 - (1 <<< w))) j = (occupied b j && decide (j ≠ w)) := by
  rw [occupied_eq_testBit, occupied_eq_testBit, Nat.testBit_and, clear_mask_bits w hw j hj]

theorem next_scan_some (b : Nat) : ∀ (n i j : Nat), next_window_scan b n i = some j →
    i ≤ j ∧ j < i + n ∧ occupied b j = true ∧ ∀ l, i ≤ l → l < j → occupied b l = false := by
  intro n
  induction n with
  | zero => intro i j h; simp [next_window_scan] at h
  | succ n ih =>
    intro i j h
    simp only [next_window_scan] at h
    by_cases ho : occupied b i = true
    · simp only [ho, if_true, Option.some.injEq] at h
      subst h
      exact ⟨le_refl _, by omega, ho, fun l h1 h2 => by omega⟩
    · simp only [ho, if_false] at h
      obtain ⟨h1, h2, h3, h4⟩ := ih (i + 1) j h
      refine ⟨by omega, by omega, h3, ?_⟩
      intro l hl1 hl2
      by_cases hli : l = i
      · subst hli; simpa using ho
      · exact h4 l (by omega) hl2

theorem next_scan_none (b : Nat) : ∀ (n i : Nat), next_window_scan b n i = none →
    ∀ l, i ≤ l → l < i + n → occupied b l = false := by
  intro n
  induction n with
  | zero => intro i _ l h1 h2; omega
  | succ n ih =>
    intro i h l h1 h2
    simp only [next_window_scan] at h
    by_cases ho : occupied b i = true
    · simp [ho] at h
    · simp only [ho, if_false] at h
      by_cases hli : l = i
      · subst hli; simpa using ho
      · exact ih (i + 1) h l (by omega) (by omega)

theorem new_scan_spec (b : Nat) : ∀ (n j : Nat), j + n < 65535 →
    (new_window_scan b n j = 65535 ∧ ∀ l, j ≤ l → l < j + n → occupied b l = true) ∨
    (j ≤ new_window_scan b n j ∧ new_window_scan b n j < j + n ∧
      occupied b (new_window_scan b n j) = false ∧
      ∀ l, j ≤ l → l < new_window_scan b n j → occupied b l = true) := by
  intro n
  induction n with
  | zero => intro j _; left; exact ⟨rfl, fun l h1 h2 => by omega⟩
  | succ n ih =>
    intro j hj
    by_cases ho : occupied b j = true
    · have e : new_window_scan b (n + 1) j = new_window_scan b n (j + 1) := by
        simp [new_window_scan, ho]
      rw [e]
      rcases ih (j + 1) (by omega) with ⟨h1, h2⟩ | ⟨h1, h2, h3, h4⟩
      · left
        refine ⟨h1, ?_⟩
        intro l hl1 hl2
        by_cases hlj : l = j
        · subst hlj; exact ho
        · exact h2 l (by omega) (by omega)
      · right
        refine ⟨by omega, by omega, h3, ?_⟩
        intro l hl1 hl2
        by_cases hlj : l = j
        · subst hlj; exact ho
        · exact h4 l (by omega) hl2
    · have hf : occupied b j = false := by simpa using ho
      have e : new_window_scan b (n + 1) j = j := by
        simp [new_window_scan, hf]
      rw [e]
      right
      exact ⟨le_refl _, by omega, hf, fun l h1 h2 => by omega⟩

/-- What `next_window` does when `active` is a slot index: the bitmap and the
mode stay, and `active` moves to the next occupied slot in cyclic order. -/
theorem next_window_spec (m : Manager) (ha : m.active < 32) :
    (next_window m).window_bitmap = m.window_bitmap ∧ (next_window m).mode = m.mode ∧
    ((∀ i, i < 32 → occupied m.window_bitmap i = false) → next_window m = m) ∧
    ((∃ i, i < 32 ∧ occupied m.window_bitmap i = true) →
      ∃ d, 1 ≤ d ∧ d ≤ 32 ∧ occupied m.window_bitmap ((m.active + d) % 32) = true ∧
        (∀ e, 1 ≤ e → e < d → occupied m.window_bitmap ((m.active + e) % 32) = false) ∧
        (next_window m).active = (m.active + d) % 32) := by
  obtain ⟨b, mode, a⟩ := m
  simp only at ha ⊢
  cases h1 : next_window_scan b (32 - (a + 1) % 32) ((a + 1) % 32) with
  | some j =>
    have e : next_window ⟨b, mode, a⟩ = ⟨b, mode, j⟩ := by
      simp [next_window, next_window_attempts, MAX_WINDOWS, h1]
    obtain ⟨g1, g2, g3, g4⟩ := next_scan_some b _ _ j h1
    rw [e]
    refine ⟨rfl, rfl, ?_, ?_⟩
    · intro hall
      rw [hall j (by omega)] at g3
      simp at g3
    · intro _
      refine ⟨if a < j then j - a else j + 32 - a, ?_, ?_, ?_, ?_, ?_⟩
      · split_ifs <;> omega
      · split_ifs <;> omega
      · have : (a + if a < j then j - a else j + 32 - a) % 32 = j := by
          split_ifs <;> omega
        rw [this]; exact g3
      · intro e he1 he2
        apply g4
        · split_ifs at he2 <;> omega
        · split_ifs at he2 <;> omega
      · simp only
        split_ifs <;> omega
  | none =>
    have g0 := next_scan_none b _ _ h1
    cases h2 : next_window_scan b 32 0 with
    | some j =>
      have e : next_window ⟨b, mode, a⟩ = ⟨b, mode, j⟩ := by
        simp [next_window, next_window_attempts, MAX_WINDOWS, h1, h2]
      obtain ⟨g1, g2, g3, g4⟩ := next_scan_some b _ _ j h2
      have hj : j < (a + 1) % 32 := by
        by_contra hge
        rw [g0 j (by omega) (by omega)] at g3
        simp at g3
      rw [e]
      refine ⟨rfl, rfl, ?_, ?_⟩
      · intro hall
        rw [hall j (by omega)] at g3
        simp at g3
      · intro _
        refine ⟨j + 32 - a, by omega, by omega, ?_, ?_, ?_⟩
        · have : (a + (j + 32 - a)) % 32 = j := by omega
          rw [this]; exact g3
        · intro e he1 he2
          by_cases hlt : a + e < 32
          · exact g0 _ (by omega) (by omega)
          · exact g4 _ (by omega) (by omega)
        · simp only; omega
    | none =>
      have e : next_window ⟨b, mode, a⟩ = ⟨b, mode, a⟩ := by
        simp [next_window, next_window_attempts, MAX_WINDOWS, h1, h2]
      have g5 := next_scan_none b _ _ h2
      rw [e]
      refine ⟨rfl, rfl, fun _ => rfl, ?_⟩
      rintro ⟨i, hi, ho⟩
      rw [g5 i (by omega) (by omega)] at ho
      simp at ho

/-- C19: for a 32-bit bitmap and `active` in `[0, 32)`, `next_window` (a total
function: each loop runs for at most as many rounds as its bound allows)
leaves the bitmap and the mode as they were; when the bitmap is zero it
leaves `active` as it was, and otherwise it sets `active` to
`(active + d) % 32` for the least `d` in `1..32` whose slot is occupied. -/
theorem next_window_cyclic (m : Manager) (hb : m.window_bitmap < 4294967296)
    (ha : m.active < 32) :
    (next_window m).window_bitmap = m.window_bitmap ∧ (next_window m).mode = m.mode ∧
    (m.window_bitmap = 0 → (next_window m).active = m.active) ∧
    (m.window_bitmap ≠ 0 →
      ∃ d, 1 ≤ d ∧ d ≤ 32 ∧ occupied m.window_bitmap ((m.active + d) % 32) = true ∧
        (∀ e, 1 ≤ e → e < d → occupied m.window_bitmap ((m.active + e) % 32) = false) ∧
        (next_window m).active = (m.active + d) % 32) := by
  obtain ⟨h1, h2, h3, h4⟩ := next_window_spec m ha
  refine ⟨h1, h2, ?_, ?_⟩
  · intro h0
    rw [h3 (fun i _ => by rw [h0]; exact occupied_zero i)]
  · intro h0
    exact h4 (exists_occupied _ hb h0)

/-- Witness for C19: slots `1` and `3` occupied, `active = 1`. -/
theorem next_window_cyclic_witness :
    ∃ d, 1 ≤ d ∧ d ≤ 32 ∧ occupied 10 ((1 + d) % 32) = true ∧
      (∀ e, 1 ≤ e → e < d → occupied 10 ((1 + e) % 32) = false) ∧
      (next_window ⟨10, 1, 1⟩).active = (1 + d) % 32 :=
  (next_window_cyclic ⟨10, 1, 1⟩ (by decide) (by decide)).2.2.2 (by decide)

theorem next_window_focus (m : Manager) (hb : m.window_bitmap < 4294967296)
    (ha : m.active < 32) :
    (next_window m).window_bitmap < 4294967296 ∧ (next_window m).active < 32 ∧
    ((∃ i, i < 32 ∧ occupied (next_window m).window_bitmap i = true) →
      occupied (next_window m).window_bitmap (next_window m).active = true) := by
  obtain ⟨h1, -, h3, h4⟩ := next_window_spec m ha
  by_cases hex : ∃ i, i < 32 ∧ occupied m.window_bitmap i = true
  · obtain ⟨d, -, -, g3, -, g5⟩ := h4 hex
    refine ⟨by rw [h1]; exact hb, by rw [g5]; omega, fun _ => ?_⟩
    rw [h1, g5]; exact g3
  · refine ⟨by rw [h1]; exact hb, ?_, ?_⟩
    · rw [h3 (fun i hi => by
        cases ho : occupied m.window_bitmap i with
        | false => rfl
        | true => exact absurd ⟨i, hi, ho⟩ hex)]
      exact ha
    · rw [h1]; intro h; exact absurd h hex

/-- What `new_window` does: nothing when the 32 slots are occupied, and
otherwise it occupies the lowest free slot and no other. -/
theorem new_window_slot (m : Manager) :
    ((∀ i, i < 32 → occupied m.window_bitmap i = true) → new_window m = m) ∧
    ((∃ i, i < 32 ∧ occupied m.window_bitmap i = false) →
      ∃ i, i < 32 ∧ occupied m.window_bitmap i = false ∧
        (∀ l, l < i → occupied m.window_bitmap l = true) ∧
        (new_window m).active = m.active ∧ (new_window m).mode = m.mode ∧
        (new_window m).window_bitmap < 4294967296 ∧
        ∀ j, j < 32 → occupied (new_window m).window_bitmap j
          = (occupied m.window_bitmap j || decide (j = i))) := by
  rcases new_scan_spec m.window_bitmap 32 0 (by decide) with ⟨h1, h2⟩ | ⟨-, h2, h3, h4⟩
  · constructor
    · intro _
      simp [new_window, MAX_WINDOWS, h1]
    · rintro ⟨i, hi, ho⟩
      rw [h2 i (by omega) (by omega)] at ho
      simp at ho
  · constructor
    · intro hall
      rw [hall _ (by omega)] at h3
      simp at h3
    · intro _
      have hne : new_window_scan m.window_bitmap 32 0 ≠ 65535 := by omega
      refine ⟨new_window_scan m.window_bitmap 32 0, by omega, h3,
        fun l hl => h4 l (by omega) hl, ?_, ?_, ?_, ?_⟩
      · simp [new_window, MAX_WINDOWS, hne]
      · simp [new_window, MAX_WINDOWS, hne]
      · simp only [new_window, MAX_WINDOWS, hne, if_false]
        exact Nat.mod_lt _ (by decide)
      · intro j hj
        simp only [new_window, MAX_WINDOWS, hne, if_false]
        rw [occupied_set]
        simp [hj, eq_comm]

theorem new_window_frame (m : Manager) (hb : m.window_bitmap < 4294967296) :
    (new_window m).active = m.active ∧ (new_window m).mode = m.mode ∧
    (new_window m).window_bitmap < 4294967296 := by
  unfold new_window
  split_ifs
  · exact ⟨rfl, rfl, hb⟩
  · exact ⟨rfl, rfl, Nat.mod_lt _ (by decide)⟩

theorem close_window_focus (m : Manager) (hb : m.window_bitmap < 4294967296)
    (ha : m.active < 32)
    (hf : (∃ i, i < 32 ∧ occupied m.window_bitmap i = true) →
      occupied m.window_bitmap m.active = true) :
    (close_window m m.active).window_bitmap < 4294967296 ∧
    (close_window m m.active).active < 32 ∧
    ((∃ i, i < 32 ∧ occupied (close_window m m.active).window_bitmap i = true) →
      occupied (close_window m m.active).window_bitmap (close_window m m.active).active
        = true) := by
  unfold close_window
  split_ifs
  · exact ⟨hb, ha, hf⟩
  · exact next_window_focus _ (lt_of_le_of_lt Nat.and_le_left hb) ha

/-- The invariant of the window manager: a 32-bit bitmap, `active` a slot
index, and the active slot occupied whenever some slot is. -/
theorem running_invariant (m : Manager) (h : Running m) :
    m.window_bitmap < 4294967296 ∧ m.active < 32 ∧
    ((∃ i, i < 32 ∧ occupied m.window_bitmap i = true) →
      occupied m.window_bitmap m.active = true) := by
  induction h with
  | start => exact ⟨by decide, by decide, fun _ => by decide⟩
  | key m m1 c _ hk ih =>
    obtain ⟨hb, ha, hf⟩ := ih
    unfold key_down at hk
    split_ifs at hk
    all_goals simp only [Option.some.injEq] at hk
    all_goals subst hk
    all_goals first
      | exact ⟨hb, ha, hf⟩
      | exact next_window_focus _ hb ha
      | exact close_window_focus _ hb ha hf
      | exact next_window_focus _ (new_window_frame { m with mode := NORMAL_MODE } hb).2.2
          (by rw [(new_window_frame { m with mode := NORMAL_MODE } hb).1]; exact ha)

/-- C20: in every state the window manager reaches from start-up by key-down
events, the bitmap fits 32 bits, `active` lies in `[0, 32)` and the slot of
`active` is occupied whenever some slot is; in command mode tab is
`next_window`, `q` is `close_window(active)` and `n` is `new_window` followed
by `next_window`; `new_window` changes nothing when the 32 slots are
occupied, and otherwise occupies the lowest free slot and no other, leaving
`active` as it was. -/
theorem running_focus (m : Manager) (h : Running m) :
    m.window_bitmap < 4294967296 ∧ m.active < 32 ∧
    ((∃ i, i < 32 ∧ occupied m.window_bitmap i = true) →
      occupied m.window_bitmap m.active = true) ∧
    (m.mode = COMMAND_MODE →
      key_down m 9 = some (next_window m) ∧
      key_down m 113 = some (close_window m m.active) ∧
      key_down m 110 = some (next_window (new_window { m with mode := NORMAL_MODE }))) ∧
    ((∀ i, i < 32 → occupied m.window_bitmap i = true) → new_window m = m) ∧
    ((∃ i, i < 32 ∧ occupied m.window_bitmap i = false) →
      ∃ i, i < 32 ∧ occupied m.window_bitmap i = false ∧
        (∀ l, l < i → occupied m.window_bitmap l = true) ∧
        (new_window m).active = m.active ∧ (new_window m).mode = m.mode ∧
        (new_window m).window_bitmap < 4294967296 ∧
        ∀ j, j < 32 → occupied (new_window m).window_bitmap j
          = (occupied m.window_bitmap j || decide (j = i))) := by
  obtain ⟨h1, h2, h3⟩ := running_invariant m h
  refine ⟨h1, h2, h3, ?_, (new_window_slot m).1, (new_window_slot m).2⟩
  intro hm
  simp [key_down, hm]

/-- Witness for C20: the state after the keys `~` and `n` from start-up, with
slots `0` and `1` occupied and `active = 1`. -/
theorem running_focus_witness :
    (3 : Nat) < 4294967296 ∧ (1 : Nat) < 32 ∧ occupied 3 1 = true ∧
    ∃ i, i < 32 ∧ occupied 3 i = false ∧ (∀ l, l < i → occupied 3 l = true) ∧
      (new_window ⟨3, 0, 1⟩).active = 1 ∧ (new_window ⟨3, 0, 1⟩).mode = 0 ∧
      (new_window ⟨3, 0, 1⟩).window_bitmap < 4294967296 ∧
      ∀ j, j < 32 → occupied (new_window ⟨3, 0, 1⟩).window_bitmap j
        = (occupied 3 j || decide (j = i)) :=
  have hrun : Running ⟨3, 0, 1⟩ :=
    Running.key ⟨1, 1, 0⟩ _ 110 (Running.key manager_start _ 126 Running.start rfl) rfl
  ⟨(running_focus _ hrun).1, (running_focus _ hrun).2.1,
    (running_focus _ hrun).2.2.1 ⟨0, by decide, by decide⟩,
    (running_focus _ hrun).2.2.2.2.2 ⟨2, by decide, by decide⟩⟩

end Basekernel
